import Mathlib

/-!
# The article service (`cmd/service`): handlers over an in-memory store

A shallow embedding of `cmd/service/handlers.go` and the types of
`cmd/service/main.go`.

* A Go `string` is the list of its bytes, written `Str`; `len` is `List.length`
  and a slice `s[i:j]` is `(s.drop i).take (j - i)`.  Every literal of the
  source is ASCII, one `Char` per byte.
* A Go `map` is the list of its entries.  The order of the list stands for the
  order in which `range` visits the map, which Go leaves unspecified, so a
  statement about every store is a statement about every iteration order.
* The handlers are state passing: each takes the store `app.articles` and the
  request and gives back the store and the response.  Logging is left out.
* `strings.ToLower` is a parameter `ToLower` of the query: nothing that is
  proved depends on which function it is.  `asciiToLower` is what it does on
  ASCII text and is used for the concrete evaluations.
* A request carries the outcome of `dec.Decode(&a)`.  For a body that is a JSON
  value, `decodeArticle` gives that outcome as `encoding/json` computes it for
  the struct `article` with unknown fields disallowed; its case folding of
  object keys is the parameter `foldName`, with `asciiFoldName` for the
  concrete evaluations.
-/

namespace Service

/-- A Go string, as the list of its bytes. -/
abbrev Str := List Char

/-! ## `main.go`: the data model -/

/-- The Go struct `article`. -/
structure article where
  ID : Str
  Title : Str
  Date : Str
  Body : Str
  Tags : List Str
deriving DecidableEq, Repr

/-- The Go struct `result`.  `Count` starts at `0` and is only ever incremented
by one, so it is a natural number here. -/
structure result where
  Tag : Str
  Count : Nat
  Articles : List Str
  RelatedTags : List Str
deriving DecidableEq, Repr

/-- The Go type `map[int]article` of `application.articles`: the list of the
entries of the map.  A map holds every key once (`keysNodup`). -/
abbrev Store := List (Int × article)

/-- Well-formedness of a store as a map: no key occurs twice. -/
def keysNodup (s : Store) : Prop := (s.map Prod.fst).Nodup

instance (s : Store) : Decidable (keysNodup s) := by
  unfold keysNodup; infer_instance

/-- The map read `v, ok := m[k]`: `none` stands for `ok == false`. -/
def mapGet : Store → Int → Option article
  | [], _ => none
  | (k', v) :: rest, k => if k' = k then some v else mapGet rest k

/-- The map write `m[k] = v`: any entry under `k` is replaced. -/
def mapSet (s : Store) (k : Int) (v : article) : Store :=
  (k, v) :: s.filter (fun e => decide (e.1 ≠ k))

/-! ## The library functions the handlers call -/

/-- Go `strings.TrimPrefix`. -/
def TrimPrefix (s pre : Str) : Str :=
  if pre.isPrefixOf s then s.drop pre.length else s

/-- Go `strings.TrimSuffix`. -/
def TrimSuffix (s suf : Str) : Str :=
  if suf.isSuffixOf s then s.take (s.length - suf.length) else s

/-- Go `strings.Split` for a separator of one byte (the source only splits on
`"/"`): the pieces between the separators, `n + 1` of them when the separator
occurs `n` times. -/
def Split : Str → Char → List Str
  | [], _ => [[]]
  | c :: cs, sep =>
    if c = sep then [] :: Split cs sep
    else
      match Split cs sep with
      | [] => [[c]]
      | p :: ps => (c :: p) :: ps

/-- The value of a string of decimal digits, most significant first, on top of
the value `acc` read so far; `none` when a byte is not a digit. -/
def parseDigits : Str → Nat → Option Nat
  | [], acc => some acc
  | c :: cs, acc =>
    if '0' ≤ c ∧ c ≤ '9' then parseDigits cs (acc * 10 + (c.toNat - '0'.toNat)) else none

/-- The least value of a 64-bit Go `int`, `-2^63`. -/
def minInt : Int := -9223372036854775808

/-- The greatest value of a 64-bit Go `int`, `2^63 - 1`. -/
def maxInt : Int := 9223372036854775807

/-- Go `strconv.Atoi` with a 64-bit `int`: an optional sign, then at least one
decimal digit and nothing else; a value outside `[-2^63, 2^63 - 1]` is a range
error.  `none` stands for a non-nil `err`. -/
def Atoi (s : Str) : Option Int :=
  let inRange (v : Int) : Option Int :=
    if minInt ≤ v ∧ v ≤ maxInt then some v else none
  match s with
  | [] => none
  | '-' :: ds =>
    if ds = [] then none
    else (parseDigits ds 0).bind fun n => inRange (-(n : Int))
  | '+' :: ds =>
    if ds = [] then none
    else (parseDigits ds 0).bind fun n => inRange (n : Int)
  | ds => (parseDigits ds 0).bind fun n => inRange (n : Int)

/-- Go `strconv.Itoa`: decimal digits without leading zeros, `-` in front of a
negative number. -/
def Itoa (i : Int) : Str :=
  if i < 0 then '-' :: Nat.toDigits 10 i.natAbs else Nat.toDigits 10 i.toNat

/-- What Go `strings.ToLower` does on ASCII text: `A`..`Z` become `a`..`z`. -/
def asciiToLower (s : Str) : Str :=
  s.map fun c => if 'A' ≤ c ∧ c ≤ 'Z' then Char.ofNat (c.toNat + 32) else c

/-! ## Requests and responses -/

/-- What a handler reads of an `*http.Request`.  `Decoded` is the outcome of
`dec.Decode(&a)` on the request body with `DisallowUnknownFields` set: the
decoded article, or the text of the error. -/
structure Request where
  Method : Str
  Path : Str
  ContentType : Str
  Decoded : Except Str article

/-- What was written to the response body: plain bytes, or the JSON encoding
(`enc.Encode`, indented by one space) of an article or of a query result. -/
inductive Payload where
  | text (s : Str)
  | jsonArticle (a : article)
  | jsonResult (r : result)
deriving DecidableEq, Repr

/-- What a handler leaves in the `http.ResponseWriter`: the status (200 unless
`WriteHeader` was called with another one), the headers set and the body. -/
structure Response where
  Status : Nat
  Header : List (Str × Str)
  Body : Payload
deriving DecidableEq, Repr

def StatusOK : Nat := 200
def StatusBadRequest : Nat := 400
def StatusMethodNotAllowed : Nat := 405
def StatusUnsupportedMediaType : Nat := 415

def MethodGet : Str := "GET".toList
def MethodPost : Str := "POST".toList

/-- Go `http.Error(w, msg, code)` on a writer that already holds the headers
`hdr`: plain-text content type, the status `code`, and `msg` with a newline. -/
def httpError (hdr : List (Str × Str)) (msg : Str) (code : Nat) : Response :=
  { Status := code
    Header := hdr ++ [("Content-Type".toList, "text/plain; charset=utf-8".toList),
                      ("X-Content-Type-Options".toList, "nosniff".toList)]
    Body := .text (msg ++ ['\n']) }

/-- The 405 answer shared by the three handlers: the `Allow` header, then
`http.Error` with the status text. -/
def methodNotAllowed (allow : Str) : Response :=
  httpError [("Allow".toList, allow)] "Method Not Allowed".toList StatusMethodNotAllowed

/-! ## `handlers.go` -/

/-- The handler `createArticle`. -/
def createArticle (articles : Store) (r : Request) : Store × Response :=
  if r.Method ≠ MethodPost then
    (articles, methodNotAllowed MethodPost)
  else if r.ContentType ≠ "application/json".toList then
    (articles, httpError [] "Content-Type header is not set to application/json".toList
      StatusUnsupportedMediaType)
  else
    match r.Decoded with
    | .error msg => (articles, httpError [] msg StatusBadRequest)
    | .ok a =>
      match Atoi a.ID with
      | none => (articles, httpError [] "Invalid ID - Not a valid number".toList StatusBadRequest)
      | some id =>
        match mapGet articles id with
        | some _ =>
          (articles, httpError [] "Article with that ID already exists".toList StatusBadRequest)
        | none =>
          (mapSet articles id a, { Status := StatusOK, Header := [], Body := .text [] })

/-- The handler `getArticle`. -/
def getArticle (articles : Store) (r : Request) : Store × Response :=
  if r.Method ≠ MethodGet then
    (articles, methodNotAllowed MethodGet)
  else
    let trimmedURL := TrimPrefix r.Path "/articles/".toList
    match Atoi trimmedURL with
    | none => (articles, httpError [] "Invalid ID - Not a valid number".toList StatusBadRequest)
    | some id =>
      match mapGet articles id with
      | none =>
        (articles, { Status := StatusOK, Header := [], Body := .text "Article not found".toList })
      | some article =>
        (articles, { Status := StatusOK
                     Header := [("Content-Type".toList, "application/json".toList)]
                     Body := .jsonArticle article })

/-- The scan of `getArticleByTagAndDate` keeps three things: the `Articles` and
`Count` of `result`, and the keys of the map `relatedTags` (a set of strings). -/
structure ScanState where
  Articles : List Str
  Count : Nat
  relatedTags : List Str
deriving DecidableEq, Repr

/-- The write `relatedTags[rt] = true` on the set of related tags. -/
def setAdd (m : List Str) (rt : Str) : List Str :=
  if rt ∈ m then m else m ++ [rt]

/-- The innermost loop, `for _, rt := range article.Tags`: every tag that is
not the queried one when lowercased goes into the set. -/
def addRelated (ToLower : Str → Str) (tag : Str) (tags : List Str) (m : List Str) : List Str :=
  tags.foldl (fun m rt => if ToLower rt ≠ tag then setAdd m rt else m) m

/-- The body of `for _, t := range article.Tags` for one tag `t` of the
article stored under `id`. -/
def tagStep (ToLower : Str → Str) (tag : Str) (id : Int) (a : article)
    (st : ScanState) (t : Str) : ScanState :=
  if ToLower t = tag then
    { Articles := if st.Articles.length < 10 then st.Articles ++ [Itoa id] else st.Articles
      relatedTags := addRelated ToLower tag a.Tags st.relatedTags
      Count := st.Count + 1 }
  else st

/-- The body of `for id, article := range app.articles` for one entry. -/
def articleStep (ToLower : Str → Str) (date tag : Str) (st : ScanState)
    (e : Int × article) : ScanState :=
  if e.2.Date = date then e.2.Tags.foldl (tagStep ToLower tag e.1 e.2) st else st

/-- The whole loop over the store, from the empty result. -/
def scan (ToLower : Str → Str) (date tag : Str) (articles : Store) : ScanState :=
  articles.foldl (articleStep ToLower date tag)
    { Articles := [], Count := 0, relatedTags := [] }

/-- The date of the query: `params[1][:4] + "-" + params[1][4:6] + "-" + params[1][6:]`. -/
def dashDate (d : Str) : Str :=
  d.take 4 ++ "-".toList ++ (d.drop 4).take 2 ++ "-".toList ++ d.drop 6

/-- The lines of `getArticleByTagAndDate` after validation: the result built from
the two URL parameters. -/
def queryResult (ToLower : Str → Str) (articles : Store) (p0 p1 : Str) : result :=
  let date := dashDate p1
  let tag := ToLower p0
  let st := scan ToLower date tag articles
  { Tag := tag, Count := st.Count, Articles := st.Articles, RelatedTags := st.relatedTags }

/-- The URL parameters: the path without the prefix `/tags/` and without one
trailing slash, split at the slashes. -/
def urlParams (path : Str) : List Str :=
  Split (TrimSuffix (TrimPrefix path "/tags/".toList) "/".toList) '/'

/-- The handler `getArticleByTagAndDate`. -/
def getArticleByTagAndDate (ToLower : Str → Str) (articles : Store) (r : Request) :
    Store × Response :=
  if r.Method ≠ MethodGet then
    (articles, methodNotAllowed MethodGet)
  else
    match urlParams r.Path with
    | [p0, p1] =>
      if p1.length ≠ 8 then
        (articles, httpError [] "Invalid date format - use yyyymmdd".toList StatusBadRequest)
      else
        (articles, { Status := StatusOK
                     Header := [("Content-Type".toList, "application/json".toList)]
                     Body := .jsonResult (queryResult ToLower articles p0 p1) })
    | _ => (articles, httpError [] "Invalid URL parameters".toList StatusBadRequest)

/-! ## The scan, one matching tag occurrence at a time -/

/-- The matching tag occurrences in scan order: one copy of an entry for each
of its tags that is the queried tag when lowercased, for the entries with the
queried date. -/
def hits (ToLower : Str → Str) (date tag : Str) (articles : Store) : List (Int × article) :=
  articles.flatMap fun e =>
    if e.2.Date = date then (e.2.Tags.filter fun t => ToLower t = tag).map fun _ => e else []

/-- What the scan does at one matching tag occurrence of the entry `e`. -/
def hitStep (ToLower : Str → Str) (tag : Str) (st : ScanState) (e : Int × article) : ScanState :=
  { Articles := if st.Articles.length < 10 then st.Articles ++ [Itoa e.1] else st.Articles
    relatedTags := addRelated ToLower tag e.2.Tags st.relatedTags
    Count := st.Count + 1 }

/-! ## The query, as the claims word it -/

/-- The (article, tag occurrence) pairs of a store: every entry of the store
with every position of its tag list. -/
def tagOccurrences (articles : Store) : List ((Int × article) × Str) :=
  articles.flatMap fun e => e.2.Tags.map fun t => (e, t)

/-- The pairs that match a query: the date of the article is `date` and the
tag occurrence, lowercased, is `tag`. -/
def matchingPairs (ToLower : Str → Str) (date tag : Str) (articles : Store) :
    List ((Int × article) × Str) :=
  (tagOccurrences articles).filter fun p => p.1.2.Date = date ∧ ToLower p.2 = tag

/-- An entry of the store matches a query: its article has the date `date` and
has a tag that is `tag` when lowercased. -/
def Matches (ToLower : Str → Str) (date tag : Str) (e : Int × article) : Prop :=
  e.2.Date = date ∧ ∃ t ∈ e.2.Tags, ToLower t = tag

/-- The request `GET /tags/<tagSeg>/<dateSeg>`; the handler does not read the
other parts of a request. -/
def tagDateRequest (tagSeg dateSeg : Str) : Request :=
  { Method := MethodGet
    Path := "/tags/".toList ++ tagSeg ++ "/".toList ++ dateSeg
    ContentType := []
    Decoded := .error [] }

/-! ## The articles of `TestGetArticleByTagAndDate` -/

def ta1 : article :=
  { ID := "3".toList, Title := "The Three Bananas".toList, Date := "1994-11-24".toList
    Body := "All for one and one for all, united we stand peeled we fall".toList
    Tags := ["Banana".toList, "Literature".toList, "Fruit".toList] }

def ta2 : article :=
  { ID := "77".toList, Title := "Carrots: the good, the bad and the orange".toList
    Date := "1994-11-24".toList
    Body := ("You see in this world there's two kinds of carrots, my friend - those with " ++
      "Loaded Guns, and those who dig. You dig.").toList
    Tags := ["Vegetable".toList, "Carrot".toList, "Western".toList] }

def ta3 : article :=
  { ID := "12".toList, Title := "Pulp Fiction".toList, Date := "1994-11-24".toList
    Body := "Is fruit pulp real?".toList
    Tags := ["Defintely-not-a-movie".toList, "Fruit".toList, "Juice".toList] }

def ta4 : article :=
  { ID := "5".toList, Title := "The Apple Strikes Back".toList, Date := "1980-05-06".toList
    Body := ("Luke, you can destroy the Apple. He has foreseen this. It is your destiny. " ++
      "Join me, and together we can rule the galaxy as father and son").toList
    Tags := ["Apple".toList, "Fruit".toList, "Space".toList] }

/-- The article of `TestCreateArticle`. -/
def testArticle : article :=
  { ID := "1".toList, Title := "test title".toList, Date := "2022-01-01".toList
    Body := "test body".toList, Tags := ["test".toList] }

/-- The store of the test, in one of its iteration orders. -/
def testStore : Store := [(3, ta1), (77, ta2), (12, ta3), (5, ta4)]

/-- The request of the test: `GET /tags/fruit/19941124/`. -/
def testQuery : Request :=
  { Method := MethodGet, Path := "/tags/fruit/19941124/".toList, ContentType := []
    Decoded := .error [] }

/-- A store of twelve articles of one day that all carry the tag `Go`. -/
def twelveStore : Store :=
  (List.range 12).map fun i =>
    ((i : Int), { ID := Itoa i, Title := [], Date := "2022-01-01".toList, Body := []
                  Tags := ["Go".toList] })

/-! ## Requests used in the statements -/

/-- The request `POST /articles` with content type `application/json` whose body
decodes to `a`. -/
def postArticle (a : article) : Request :=
  { Method := MethodPost
    Path := "/articles".toList
    ContentType := "application/json".toList
    Decoded := .ok a }

/-- The request `GET /articles/<n>`. -/
def getArticleRequest (n : Str) : Request :=
  { Method := MethodGet
    Path := "/articles/".toList ++ n
    ContentType := []
    Decoded := .error [] }

/-- The checks of `createArticle` in the order in which the claim lists them,
each with the status it answers when it fails: the method is not POST, the
content type is not `application/json`, the body does not decode, the id does
not parse, the parsed id is a key of the store. -/
def createChecks (articles : Store) (r : Request) : List (Bool × Nat) :=
  [ (decide (r.Method ≠ MethodPost), 405),
    (decide (r.ContentType ≠ "application/json".toList), 415),
    (match r.Decoded with
      | .error _ => true
      | .ok _ => false, 400),
    (match r.Decoded with
      | .error _ => false
      | .ok a => (Atoi a.ID).isNone, 400),
    (match r.Decoded with
      | .error _ => false
      | .ok a =>
        match Atoi a.ID with
        | none => false
        | some id => (mapGet articles id).isSome, 400) ]

/-- The status of the first failing check of a list, `200` when none fails. -/
def firstFailing : List (Bool × Nat) → Nat
  | [] => 200
  | (failed, status) :: rest => if failed then status else firstFailing rest

/-- Two articles with the same id `5`, the id of `ta4`. -/
def firstFive : article :=
  { ID := "5".toList, Title := "first".toList, Date := "2022-01-01".toList
    Body := "submitted first".toList, Tags := ["a".toList] }

def secondFive : article :=
  { ID := "5".toList, Title := "second".toList, Date := "2022-01-02".toList
    Body := "submitted second".toList, Tags := ["b".toList] }

/-! ## Stores and requests of the later statements -/

/-- A store with one article that carries the tag of the query twice, in two
spellings. -/
def doubledStore : Store :=
  [(1, { ID := "1".toList, Title := "Fruit salad".toList, Date := "1994-11-24".toList
         Body := "Twice the fruit".toList, Tags := ["Fruit".toList, "fruit".toList] })]

/-- The three handlers registered in `routes.go`. -/
inductive Handler where
  | createArticle
  | getArticle
  | getArticleByTagAndDate
deriving DecidableEq, Repr

/-- One request served by one of the handlers on the store `articles`. -/
def serve (ToLower : Str → Str) (articles : Store) (hr : Handler × Request) :
    Store × Response :=
  match hr.1 with
  | .createArticle => createArticle articles hr.2
  | .getArticle => getArticle articles hr.2
  | .getArticleByTagAndDate => getArticleByTagAndDate ToLower articles hr.2

/-- The store after a sequence of requests, from the store `articles`. -/
def runFrom (ToLower : Str → Str) (articles : Store) (reqs : List (Handler × Request)) : Store :=
  reqs.foldl (fun s hr => (serve ToLower s hr).1) articles

/-- The store after a sequence of requests from the empty store of `main`,
`make(map[int]article)`. -/
def run (ToLower : Str → Str) (reqs : List (Handler × Request)) : Store :=
  runFrom ToLower [] reqs

/-! ## The request body: `encoding/json` into an `article`

`dec.Decode(&a)` on a body that holds one JSON value, with
`dec.DisallowUnknownFields()` set.  A body that is not JSON is a `Decoded` that
is an error from the start. -/

/-- A JSON value. -/
inductive JSON where
  | null
  | bool (b : Bool)
  | number (text : Str)
  | string (s : Str)
  | array (elems : List JSON)
  | object (members : List (Str × JSON))

/-- The fields of the struct `article`. -/
inductive Field where
  | ID
  | Title
  | Date
  | Body
  | Tags
deriving DecidableEq, Repr

/-- The key of a field, from its `json:"..."` tag. -/
def Field.name : Field → Str
  | .ID => "id".toList
  | .Title => "title".toList
  | .Date => "date".toList
  | .Body => "body".toList
  | .Tags => "tags".toList

def articleFields : List Field := [.ID, .Title, .Date, .Body, .Tags]

/-- The field an object key is decoded into: the field with exactly that name,
or else the first field with the same folded name.  `foldName` is the case
folding of `encoding/json`. -/
def findField (foldName : Str → Str) (key : Str) : Option Field :=
  match articleFields.find? fun f => decide (f.name = key) with
  | some f => some f
  | none => articleFields.find? fun f => decide (foldName f.name = foldName key)

/-- What the case folding of `encoding/json` does on ASCII keys: `a`..`z`
become `A`..`Z`. -/
def asciiFoldName (s : Str) : Str :=
  s.map fun c => if 'a' ≤ c ∧ c ≤ 'z' then Char.ofNat (c.toNat - 32) else c

/-- The state of the decoder: the struct being filled, the slots of the slice
`Tags` beyond its length, and the first error saved (`d.savedError`). -/
structure DecodeState where
  a : article
  spare : List Str
  savedError : Option Str

/-- Go `d.saveError`: only the first error is kept. -/
def saveError (d : DecodeState) (msg : Str) : DecodeState :=
  match d.savedError with
  | some _ => d
  | none => { d with savedError := some msg }

/-- The text of an `UnmarshalTypeError` for a value of kind `value` met at the
field `field` of Go type `type`. -/
def typeErrorText (value field type : Str) : Str :=
  "json: cannot unmarshal ".toList ++ value ++ " into Go struct field article.".toList
    ++ field ++ " of type ".toList ++ type

/-- A JSON value decoded into a Go `string` that holds `cur`: the new value,
and the kind of the JSON value when it is no string.  `null` leaves the string
as it is. -/
def storeString (cur : Str) : JSON → Str × Option Str
  | .string s => (s, none)
  | .null => (cur, none)
  | .bool _ => (cur, some "bool".toList)
  | .number _ => (cur, some "number".toList)
  | .array _ => (cur, some "array".toList)
  | .object _ => (cur, some "object".toList)

/-- The elements of a JSON array decoded one by one into the slots of a slice
of strings (an empty slot holds the empty string): the new elements and the
kind of the first element that is no string. -/
def storeElems : List Str → List JSON → List Str × Option Str
  | _, [] => ([], none)
  | slots, v :: vs =>
    let first := storeString (slots.headD []) v
    let rest := storeElems slots.tail vs
    (first.1 :: rest.1, match first.2 with
      | some kind => some kind
      | none => rest.2)

/-- A JSON value decoded into the field `Tags`, a `[]string`. -/
def storeTags (d : DecodeState) : JSON → DecodeState
  | .array elems =>
    if elems.isEmpty then { d with a := { d.a with Tags := [] }, spare := [] }
    else
      let slots := d.a.Tags ++ d.spare
      let stored := storeElems slots elems
      let d' := { d with a := { d.a with Tags := stored.1 }, spare := slots.drop elems.length }
      match stored.2 with
      | some kind => saveError d' (typeErrorText kind "tags".toList "string".toList)
      | none => d'
  | .null => { d with a := { d.a with Tags := [] }, spare := [] }
  | .bool _ => saveError d (typeErrorText "bool".toList "tags".toList "[]string".toList)
  | .number _ => saveError d (typeErrorText "number".toList "tags".toList "[]string".toList)
  | .string _ => saveError d (typeErrorText "string".toList "tags".toList "[]string".toList)
  | .object _ => saveError d (typeErrorText "object".toList "tags".toList "[]string".toList)

/-- The state after a value decoded into a string field, given the outcome of
`storeString` for it. -/
def afterString (d : DecodeState) (field : Field) (a : article) (kind : Option Str) :
    DecodeState :=
  match kind with
  | some k => saveError { d with a := a } (typeErrorText k field.name "string".toList)
  | none => { d with a := a }

/-- One member `key: value` of the object, as `decodeState.object` handles it:
the value goes into the field found for the key; a key with no field is an error
because unknown fields are disallowed (its value is skipped). -/
def decodeMember (foldName : Str → Str) (d : DecodeState) (kv : Str × JSON) : DecodeState :=
  match findField foldName kv.1 with
  | none => saveError d ("json: unknown field \"".toList ++ kv.1 ++ "\"".toList)
  | some .ID =>
    afterString d .ID { d.a with ID := (storeString d.a.ID kv.2).1 } (storeString d.a.ID kv.2).2
  | some .Title =>
    afterString d .Title { d.a with Title := (storeString d.a.Title kv.2).1 }
      (storeString d.a.Title kv.2).2
  | some .Date =>
    afterString d .Date { d.a with Date := (storeString d.a.Date kv.2).1 }
      (storeString d.a.Date kv.2).2
  | some .Body =>
    afterString d .Body { d.a with Body := (storeString d.a.Body kv.2).1 }
      (storeString d.a.Body kv.2).2
  | some .Tags => storeTags d kv.2

/-- The zero value of `article`, what `var a article` holds. -/
def zeroArticle : article := { ID := [], Title := [], Date := [], Body := [], Tags := [] }

/-- The members of an object decoded in their order into a zero `article`. -/
def decodeMembers (foldName : Str → Str) (members : List (Str × JSON)) : DecodeState :=
  members.foldl (decodeMember foldName) { a := zeroArticle, spare := [], savedError := none }

/-- The outcome of `dec.Decode(&a)` for a body holding the JSON value `body`:
the article, or the text of the error.  A `null` leaves the struct as it is; any
other value that is no object is a type error. -/
def decodeArticle (foldName : Str → Str) (body : JSON) : Except Str article :=
  match body with
  | .object members =>
    match (decodeMembers foldName members).savedError with
    | some msg => .error msg
    | none => .ok (decodeMembers foldName members).a
  | .null => .ok zeroArticle
  | .bool _ => .error "json: cannot unmarshal bool into Go value of type main.article".toList
  | .number _ => .error "json: cannot unmarshal number into Go value of type main.article".toList
  | .string _ => .error "json: cannot unmarshal string into Go value of type main.article".toList
  | .array _ => .error "json: cannot unmarshal array into Go value of type main.article".toList

/-- The request `POST /articles` with content type `application/json` and the
JSON value `body` as its body. -/
def postJSON (foldName : Str → Str) (body : JSON) : Request :=
  { Method := MethodPost
    Path := "/articles".toList
    ContentType := "application/json".toList
    Decoded := decodeArticle foldName body }

/-- A body with every field of a new article, the id under the key `ID`. -/
def upperIDBody : JSON :=
  .object [("ID".toList, .string "9".toList), ("title".toList, .string "Nine".toList),
    ("date".toList, .string "2022-01-01".toList), ("body".toList, .string "text".toList),
    ("tags".toList, .array [.string "a".toList])]

/-- A body with a key that matches no field. -/
def extraKeyBody : JSON :=
  .object [("id".toList, .string "9".toList), ("title".toList, .string "Nine".toList),
    ("date".toList, .string "2022-01-01".toList), ("body".toList, .string "text".toList),
    ("tags".toList, .array [.string "a".toList]), ("author".toList, .string "me".toList)]

/-- A body with an id and nothing else. -/
def onlyIDBody : JSON := .object [("id".toList, .string "9".toList)]

/-- A body with every field but the id. -/
def noIDBody : JSON :=
  .object [("title".toList, .string "Nine".toList),
    ("date".toList, .string "2022-01-01".toList), ("body".toList, .string "text".toList),
    ("tags".toList, .array [.string "a".toList])]

/-! ## Lemmas on the scan -/

theorem foldl_tagStep (ToLower : Str → Str) (tag : Str) (id : Int) (a : article)
    (tags : List Str) (st : ScanState) :
    tags.foldl (tagStep ToLower tag id a) st
      = ((tags.filter fun t => ToLower t = tag).map fun _ => (id, a)).foldl
          (hitStep ToLower tag) st := by
  induction tags generalizing st with
  | nil => rfl
  | cons t ts ih =>
    by_cases h : ToLower t = tag
    · simp [List.filter_cons, h, ih, tagStep, hitStep]
    · simp [List.filter_cons, h, ih, tagStep]

theorem foldl_articleStep (ToLower : Str → Str) (date tag : Str) (articles : Store)
    (st : ScanState) :
    articles.foldl (articleStep ToLower date tag) st
      = (hits ToLower date tag articles).foldl (hitStep ToLower tag) st := by
  induction articles generalizing st with
  | nil => rfl
  | cons e es ih =>
    by_cases h : e.2.Date = date
    · simp [hits, articleStep, h, List.foldl_append, foldl_tagStep] at ih ⊢
      rw [ih]
    · simp [hits, articleStep, h] at ih ⊢
      rw [ih]

theorem mem_hits (ToLower : Str → Str) (date tag : Str) (articles : Store) (e : Int × article) :
    e ∈ hits ToLower date tag articles
      ↔ e ∈ articles ∧ e.2.Date = date ∧ ∃ t ∈ e.2.Tags, ToLower t = tag := by
  simp only [hits, List.mem_flatMap]
  constructor
  · rintro ⟨e', he', h⟩
    by_cases hd : e'.2.Date = date
    · simp only [hd, if_true, List.mem_map, List.mem_filter, decide_eq_true_eq] at h
      obtain ⟨t, ⟨ht, hl⟩, rfl⟩ := h
      exact ⟨he', hd, t, ht, hl⟩
    · simp [hd] at h
  · rintro ⟨he, hd, t, ht, hl⟩
    refine ⟨e, he, ?_⟩
    simp only [hd, if_true, List.mem_map, List.mem_filter, decide_eq_true_eq]
    exact ⟨t, ⟨ht, hl⟩, trivial⟩

theorem foldl_hitStep_Count (ToLower : Str → Str) (tag : Str) (hs : List (Int × article))
    (st : ScanState) :
    (hs.foldl (hitStep ToLower tag) st).Count = st.Count + hs.length := by
  induction hs generalizing st with
  | nil => rfl
  | cons e es ih => simp [ih, hitStep]; omega

theorem take_append_singleton_take {α : Type} (l : List α) (x : α) (n : Nat) :
    (if (l.take n).length < n then l.take n ++ [x] else l.take n) = (l ++ [x]).take n := by
  by_cases h : l.length < n
  · have h1 : l.take n = l := List.take_of_length_le (Nat.le_of_lt h)
    have h2 : (l ++ [x]).take n = l ++ [x] :=
      List.take_of_length_le (by simp; omega)
    simp [h1, h2, h]
  · have h1 : (l.take n).length = n := by simp; omega
    have h2 : (l ++ [x]).take n = l.take n := by
      rw [List.take_append_of_le_length (by omega)]
    simp [h1, h2]

theorem foldl_hitStep_Articles (ToLower : Str → Str) (tag : Str) (hs : List (Int × article))
    (st : ScanState) (l : List Str) (hst : st.Articles = l.take 10) :
    (hs.foldl (hitStep ToLower tag) st).Articles
      = (l ++ hs.map fun e => Itoa e.1).take 10 := by
  induction hs generalizing st l with
  | nil => simpa using hst
  | cons e es ih =>
    rw [List.foldl_cons, ih _ (l ++ [Itoa e.1])]
    · simp
    · simp only [hitStep, hst]
      exact take_append_singleton_take l (Itoa e.1) 10

theorem mem_setAdd (m : List Str) (rt s : Str) : s ∈ setAdd m rt ↔ s ∈ m ∨ s = rt := by
  unfold setAdd
  by_cases h : rt ∈ m
  · simp only [h, if_true]
    constructor
    · exact Or.inl
    · rintro (h' | rfl)
      · exact h'
      · exact h
  · simp [h]

theorem nodup_setAdd (m : List Str) (rt : Str) (h : m.Nodup) : (setAdd m rt).Nodup := by
  unfold setAdd
  by_cases hm : rt ∈ m
  · simpa [hm] using h
  · simp only [hm, if_false]
    exact List.Nodup.append h (List.nodup_singleton rt) (by simpa using hm)

theorem mem_addRelated (ToLower : Str → Str) (tag : Str) (tags m : List Str) (s : Str) :
    s ∈ addRelated ToLower tag tags m ↔ s ∈ m ∨ (s ∈ tags ∧ ToLower s ≠ tag) := by
  unfold addRelated
  induction tags generalizing m with
  | nil => simp
  | cons t ts ih =>
    rw [List.foldl_cons, ih]
    by_cases h : ToLower t = tag
    · simp only [h, ne_eq, not_true_eq_false, if_false, List.mem_cons]
      constructor
      · rintro (h1 | ⟨h2, h3⟩)
        · exact Or.inl h1
        · exact Or.inr ⟨Or.inr h2, h3⟩
      · rintro (h1 | ⟨h2 | h2, h3⟩)
        · exact Or.inl h1
        · subst h2; exact absurd h h3
        · exact Or.inr ⟨h2, h3⟩
    · simp only [ne_eq, h, not_false_eq_true, if_true, mem_setAdd, List.mem_cons]
      constructor
      · rintro ((h1 | h1) | ⟨h2, h3⟩)
        · exact Or.inl h1
        · subst h1; exact Or.inr ⟨Or.inl rfl, h⟩
        · exact Or.inr ⟨Or.inr h2, h3⟩
      · rintro (h1 | ⟨h2 | h2, h3⟩)
        · exact Or.inl (Or.inl h1)
        · exact Or.inl (Or.inr h2)
        · exact Or.inr ⟨h2, h3⟩

theorem nodup_addRelated (ToLower : Str → Str) (tag : Str) (tags m : List Str) (h : m.Nodup) :
    (addRelated ToLower tag tags m).Nodup := by
  unfold addRelated
  induction tags generalizing m with
  | nil => simpa using h
  | cons t ts ih =>
    rw [List.foldl_cons]
    apply ih
    by_cases ht : ToLower t = tag
    · simpa [ht] using h
    · simpa [ht] using nodup_setAdd m t h

theorem mem_foldl_hitStep_relatedTags (ToLower : Str → Str) (tag : Str)
    (hs : List (Int × article)) (st : ScanState) (s : Str) :
    s ∈ (hs.foldl (hitStep ToLower tag) st).relatedTags
      ↔ s ∈ st.relatedTags ∨ ∃ e ∈ hs, s ∈ e.2.Tags ∧ ToLower s ≠ tag := by
  induction hs generalizing st with
  | nil => simp
  | cons e es ih =>
    rw [List.foldl_cons, ih]
    simp only [hitStep, mem_addRelated, List.mem_cons, exists_eq_or_imp, or_assoc]

theorem nodup_foldl_hitStep_relatedTags (ToLower : Str → Str) (tag : Str)
    (hs : List (Int × article)) (st : ScanState) (h : st.relatedTags.Nodup) :
    (hs.foldl (hitStep ToLower tag) st).relatedTags.Nodup := by
  induction hs generalizing st with
  | nil => simpa using h
  | cons e es ih =>
    rw [List.foldl_cons]
    exact ih _ (nodup_addRelated ToLower tag e.2.Tags st.relatedTags h)


theorem Split_of_not_mem (s : Str) (sep : Char) (h : sep ∉ s) : Split s sep = [s] := by
  induction s with
  | nil => rfl
  | cons c cs ih =>
    have hc : c ≠ sep := fun e => h (by simp [e])
    have hcs : sep ∉ cs := fun e => h (by simp [e])
    simp [Split, hc, ih hcs]

theorem Split_append_sep (s rest : Str) (sep : Char) (h : sep ∉ s) :
    Split (s ++ sep :: rest) sep = s :: Split rest sep := by
  induction s with
  | nil => simp [Split]
  | cons c cs ih =>
    have hc : c ≠ sep := fun e => h (by simp [e])
    have hcs : sep ∉ cs := fun e => h (by simp [e])
    simp [Split, hc, ih hcs]

theorem TrimPrefix_append (pre s : Str) : TrimPrefix (pre ++ s) pre = s := by
  have h : pre.isPrefixOf (pre ++ s) = true := by
    rw [List.isPrefixOf_iff_prefix]; exact List.prefix_append pre s
  simp [TrimPrefix, h]

theorem TrimSuffix_append (s suf : Str) : TrimSuffix (s ++ suf) suf = s := by
  have h : suf.isSuffixOf (s ++ suf) = true := by
    rw [List.isSuffixOf_iff_suffix]; exact List.suffix_append s suf
  simp [TrimSuffix, h]

theorem TrimSuffix_of_getLast (s : Str) (c : Char) (x : Char) (hx : x ≠ c) :
    TrimSuffix (s ++ [x]) [c] = s ++ [x] := by
  have h : List.isSuffixOf [c] (s ++ [x]) = false := by
    rw [Bool.eq_false_iff]
    intro hs
    rw [List.isSuffixOf_iff_suffix] at hs
    obtain ⟨p, hp⟩ := hs
    have := congrArg List.getLast? hp
    simp at this
    exact hx this.symm
  simp [TrimSuffix, h]

/-- The URL parameters of `/tags/<t>/<d>` for segments without a slash, `d` not empty. -/
theorem urlParams_segments (t d : Str) (ht : '/' ∉ t) (hd : '/' ∉ d) (hne : d ≠ []) :
    urlParams ("/tags/".toList ++ t ++ "/".toList ++ d) = [t, d] := by
  unfold urlParams
  rw [List.append_assoc, List.append_assoc, TrimPrefix_append]
  have hs : "/".toList = ['/'] := rfl
  rw [hs]
  obtain ⟨d', x, rfl⟩ : ∃ d' x, d = d' ++ [x] :=
    ⟨d.dropLast, d.getLast hne, (List.dropLast_append_getLast hne).symm⟩
  have hx : x ≠ '/' := fun e => hd (by simp [e])
  have e1 : t ++ (['/'] ++ (d' ++ [x])) = (t ++ '/' :: d') ++ [x] := by simp
  rw [e1, TrimSuffix_of_getLast _ _ _ hx]
  have e2 : (t ++ '/' :: d') ++ [x] = t ++ '/' :: (d' ++ [x]) := by simp
  rw [e2, Split_append_sep _ _ _ ht, Split_of_not_mem _ _ hd]

/-- The URL parameters of `/tags/<t>/`, the date segment being empty. -/
theorem urlParams_empty_date (t : Str) (ht : '/' ∉ t) :
    urlParams ("/tags/".toList ++ t ++ "/".toList) = [t] := by
  unfold urlParams
  rw [List.append_assoc, TrimPrefix_append, TrimSuffix_append, Split_of_not_mem _ _ ht]

/-- A GET request whose path has two URL parameters, the second of length 8, is
answered with the result of the query. -/
theorem getArticleByTagAndDate_of_params (ToLower : Str → Str) (articles : Store) (r : Request)
    (p0 p1 : Str) (hm : r.Method = MethodGet) (hp : urlParams r.Path = [p0, p1])
    (hl : p1.length = 8) :
    getArticleByTagAndDate ToLower articles r
      = (articles, { Status := StatusOK
                     Header := [("Content-Type".toList, "application/json".toList)]
                     Body := .jsonResult (queryResult ToLower articles p0 p1) }) := by
  simp only [getArticleByTagAndDate, hm, hp, hl, ne_eq, not_true_eq_false, if_false]

theorem hits_length_eq (ToLower : Str → Str) (date tag : Str) (articles : Store) :
    (hits ToLower date tag articles).length
      = (matchingPairs ToLower date tag articles).length := by
  induction articles with
  | nil => rfl
  | cons e es ih =>
    simp only [hits, matchingPairs, tagOccurrences, List.flatMap_cons, List.length_append,
      List.filter_append] at ih ⊢
    rw [ih]
    congr 1
    by_cases hd : e.2.Date = date
    · simp [hd, List.filter_map, Function.comp_def]
    · simp [hd, List.filter_map, Function.comp_def]

theorem scan_eq (ToLower : Str → Str) (date tag : Str) (articles : Store) :
    scan ToLower date tag articles
      = (hits ToLower date tag articles).foldl (hitStep ToLower tag)
          { Articles := [], Count := 0, relatedTags := [] } :=
  foldl_articleStep ToLower date tag articles _

theorem scan_Count (ToLower : Str → Str) (date tag : Str) (articles : Store) :
    (scan ToLower date tag articles).Count = (hits ToLower date tag articles).length := by
  rw [scan_eq, foldl_hitStep_Count]; simp

theorem scan_Articles (ToLower : Str → Str) (date tag : Str) (articles : Store) :
    (scan ToLower date tag articles).Articles
      = ((hits ToLower date tag articles).map fun e => Itoa e.1).take 10 := by
  rw [scan_eq, foldl_hitStep_Articles ToLower tag _ _ [] rfl]; simp

theorem mem_scan_relatedTags (ToLower : Str → Str) (date tag : Str) (articles : Store) (s : Str) :
    s ∈ (scan ToLower date tag articles).relatedTags
      ↔ ∃ e ∈ articles, Matches ToLower date tag e ∧ s ∈ e.2.Tags ∧ ToLower s ≠ tag := by
  rw [scan_eq, mem_foldl_hitStep_relatedTags]
  simp only [List.not_mem_nil, false_or, mem_hits, Matches]
  constructor
  · rintro ⟨e, ⟨h1, h2, h3⟩, h4, h5⟩
    exact ⟨e, h1, ⟨h2, h3⟩, h4, h5⟩
  · rintro ⟨e, h1, ⟨h2, h3⟩, h4, h5⟩
    exact ⟨e, ⟨h1, h2, h3⟩, h4, h5⟩

theorem nodup_scan_relatedTags (ToLower : Str → Str) (date tag : Str) (articles : Store) :
    (scan ToLower date tag articles).relatedTags.Nodup := by
  rw [scan_eq]
  exact nodup_foldl_hitStep_relatedTags ToLower tag _ _ List.nodup_nil


/-! ## `Itoa` and `Atoi` -/

theorem digitChar_isDigit (m : Nat) (h : m < 10) :
    ('0' ≤ Nat.digitChar m ∧ Nat.digitChar m ≤ '9') ∧
      (Nat.digitChar m).toNat - '0'.toNat = m := by
  interval_cases m <;> decide

theorem parseDigits_toDigitsCore (fuel n : Nat) (acc : Str) (h : n < fuel) :
    parseDigits (Nat.toDigitsCore 10 fuel n acc) 0 = parseDigits acc n := by
  induction fuel generalizing n acc with
  | zero => omega
  | succ f ih =>
    have hd := digitChar_isDigit (n % 10) (Nat.mod_lt n (by decide))
    unfold Nat.toDigitsCore
    by_cases h0 : n / 10 = 0
    · have hn : n % 10 = n := Nat.mod_eq_of_lt (by omega)
      simp only [h0, if_true, parseDigits, hd.1, and_self, hd.2]
      rw [hn]; simp
    · simp only [h0, if_false]
      rw [ih (n / 10) _ (by omega)]
      simp only [parseDigits, hd.1, and_self, if_true, hd.2]
      congr 1
      omega

theorem parseDigits_toDigits (n : Nat) : parseDigits (Nat.toDigits 10 n) 0 = some n := by
  unfold Nat.toDigits
  rw [parseDigits_toDigitsCore _ _ _ (Nat.lt_succ_self n)]
  rfl

theorem toDigitsCore_head (fuel n : Nat) (acc : Str) :
    ∃ c cs, ('0' ≤ c ∧ c ≤ '9') ∧ Nat.toDigitsCore 10 (fuel + 1) n acc = c :: cs := by
  induction fuel generalizing n acc with
  | zero =>
    have hd := digitChar_isDigit (n % 10) (Nat.mod_lt n (by decide))
    refine ⟨Nat.digitChar (n % 10), acc, hd.1, ?_⟩
    simp [Nat.toDigitsCore]
  | succ f ih =>
    have hd := digitChar_isDigit (n % 10) (Nat.mod_lt n (by decide))
    by_cases h0 : n / 10 = 0
    · refine ⟨Nat.digitChar (n % 10), acc, hd.1, ?_⟩
      rw [Nat.toDigitsCore]
      simp [h0]
    · obtain ⟨c, cs, hc, he⟩ := ih (n / 10) (Nat.digitChar (n % 10) :: acc)
      refine ⟨c, cs, hc, ?_⟩
      rw [Nat.toDigitsCore]
      simp only [h0, if_false]
      exact he

theorem toDigits_head (n : Nat) :
    ∃ c cs, ('0' ≤ c ∧ c ≤ '9') ∧ Nat.toDigits 10 n = c :: cs :=
  toDigitsCore_head n n []

theorem Atoi_of_digit_head (c : Char) (cs : Str) (hc : '0' ≤ c ∧ c ≤ '9') :
    Atoi (c :: cs) = (parseDigits (c :: cs) 0).bind fun n =>
      if minInt ≤ (n : Int) ∧ (n : Int) ≤ maxInt then some (n : Int) else none := by
  have h1 : c ≠ '-' := by
    rintro rfl
    exact absurd hc.1 (by decide)
  have h2 : c ≠ '+' := by
    rintro rfl
    exact absurd hc.1 (by decide)
  unfold Atoi
  split
  · rename_i h; cases h
  · rename_i h; cases h; exact absurd rfl h1
  · rename_i h; cases h; exact absurd rfl h2
  · rfl

/-- `Atoi` reads back what `Itoa` writes, for every 64-bit integer. -/
theorem Atoi_Itoa (k : Int) (hlo : minInt ≤ k) (hhi : k ≤ maxInt) :
    Atoi (Itoa k) = some k := by
  unfold Itoa
  by_cases hk : k < 0
  · simp only [hk, if_true]
    obtain ⟨c, cs, _, he⟩ := toDigits_head k.natAbs
    have hne : Nat.toDigits 10 k.natAbs ≠ [] := by rw [he]; simp
    have hv : -((k.natAbs : Nat) : Int) = k := by omega
    simp only [Atoi, hne, if_false, parseDigits_toDigits, Option.some_bind, hv, hlo, hhi,
      and_self, if_true]
  · simp only [hk, if_false]
    obtain ⟨c, cs, hc, he⟩ := toDigits_head k.toNat
    have hp := parseDigits_toDigits k.toNat
    rw [he] at hp ⊢
    have hv : ((k.toNat : Nat) : Int) = k := by omega
    rw [Atoi_of_digit_head c cs hc, hp]
    simp only [Option.some_bind, hv, hlo, hhi, and_self, if_true]

/-- `Itoa` gives different strings for different 64-bit integers. -/
theorem Itoa_inj (k k' : Int) (hlo : minInt ≤ k) (hhi : k ≤ maxInt)
    (hlo' : minInt ≤ k') (hhi' : k' ≤ maxInt) (h : Itoa k = Itoa k') :
    k = k' := by
  have h1 := Atoi_Itoa k hlo hhi
  rw [h, Atoi_Itoa k' hlo' hhi'] at h1
  exact (Option.some.inj h1).symm

/-- What `Atoi` returns is a 64-bit integer. -/
theorem Atoi_range (s : Str) (k : Int) (h : Atoi s = some k) :
    minInt ≤ k ∧ k ≤ maxInt := by
  have key : ∀ v : Int,
      (if minInt ≤ v ∧ v ≤ maxInt then some v else none) = some k →
        minInt ≤ k ∧ k ≤ maxInt := by
    intro v hv
    by_cases hr : minInt ≤ v ∧ v ≤ maxInt
    · rw [if_pos hr] at hv
      cases hv
      exact hr
    · rw [if_neg hr] at hv
      cases hv
  unfold Atoi at h
  split at h
  · cases h
  · split at h
    · cases h
    · cases hp : parseDigits _ 0 with
      | none => rw [hp] at h; cases h
      | some n => rw [hp] at h; exact key _ h
  · split at h
    · cases h
    · cases hp : parseDigits _ 0 with
      | none => rw [hp] at h; cases h
      | some n => rw [hp] at h; exact key _ h
  · cases hp : parseDigits _ 0 with
    | none => rw [hp] at h; cases h
    | some n => rw [hp] at h; exact key _ h

/-! ## The store as a map -/

theorem mapGet_eq_none_iff (s : Store) (k : Int) :
    mapGet s k = none ↔ k ∉ s.map Prod.fst := by
  induction s with
  | nil => simp [mapGet]
  | cons e es ih =>
    obtain ⟨k0, v0⟩ := e
    by_cases h : k0 = k
    · simp [mapGet, h]
    · have h' : ¬ k = k0 := fun e => h e.symm
      simp [mapGet, h, h', ih]

theorem keysNodup_mapSet (s : Store) (k : Int) (v : article) (h : keysNodup s) :
    keysNodup (mapSet s k v) := by
  unfold keysNodup at h ⊢
  unfold mapSet
  rw [List.map_cons, List.nodup_cons]
  constructor
  · intro hk
    obtain ⟨e, he, hek⟩ := List.mem_map.1 hk
    have := (List.mem_filter.1 he).2
    simp only [ne_eq, decide_not, Bool.not_eq_true', decide_eq_false_iff_not] at this
    exact this hek
  · exact (List.Nodup.sublist (List.Sublist.map _ (List.filter_sublist _)) h)

theorem keysNodup_createArticle (articles : Store) (r : Request) (h : keysNodup articles) :
    keysNodup (createArticle articles r).1 := by
  unfold createArticle
  split
  · exact h
  · split
    · exact h
    · split
      · exact h
      · split
        · exact h
        · split
          · exact h
          · exact keysNodup_mapSet _ _ _ h

/-! ## The query by tag and date

A valid query is a GET request that the handler accepts: its path has two URL
parameters, the tag segment and the date segment, and the date segment has
length 8.  `/tags/<tag>/<date>` and `/tags/<tag>/<date>/` are such paths when
the segments hold no slash (`urlParams_segments`, and the path of the test). -/

/-- C1: for every store, tag segment and date segment of length 8, the handler
answers the query with a result whose count is the number of (article, tag
occurrence) pairs of the store in which the date of the article is the dashed
date and the lowercased tag occurrence is the lowercased queried tag; an article
holding the queried tag `k` times contributes `k`. -/
theorem C1_count_is_number_of_matching_pairs (ToLower : Str → Str) (articles : Store)
    (r : Request) (tagSeg dateSeg : Str)
    (hm : r.Method = MethodGet) (hp : urlParams r.Path = [tagSeg, dateSeg])
    (hl : dateSeg.length = 8) :
    ∃ res : result,
      getArticleByTagAndDate ToLower articles r
        = (articles, { Status := 200
                       Header := [("Content-Type".toList, "application/json".toList)]
                       Body := .jsonResult res }) ∧
      res.Count
        = (matchingPairs ToLower (dashDate dateSeg) (ToLower tagSeg) articles).length ∧
      res.Count
        = (articles.map fun e =>
            if e.2.Date = dashDate dateSeg then
              e.2.Tags.countP fun t => ToLower t = ToLower tagSeg
            else 0).sum := by
  refine ⟨queryResult ToLower articles tagSeg dateSeg, ?_, ?_, ?_⟩
  · exact getArticleByTagAndDate_of_params ToLower articles r tagSeg dateSeg hm hp hl
  · show (scan ToLower _ _ articles).Count = _
    rw [scan_Count, hits_length_eq]
  · show (scan ToLower _ _ articles).Count = _
    rw [scan_Count]
    generalize dashDate dateSeg = date
    generalize ToLower tagSeg = tag
    induction articles with
    | nil => rfl
    | cons e es ih =>
      simp only [hits, List.flatMap_cons, List.length_append, List.map_cons, List.sum_cons] at ih ⊢
      rw [ih]
      congr 1
      by_cases h : e.2.Date = date
      · simp [h, List.countP_eq_length_filter]
      · simp [h]

/-- C1 at the store and the request of the test, `GET /tags/fruit/19941124/`:
the count is 2. -/
theorem C1_count_is_number_of_matching_pairs_witness :
    (urlParams testQuery.Path = ["fruit".toList, "19941124".toList] ∧
      "19941124".toList.length = 8) ∧
    (matchingPairs asciiToLower (dashDate "19941124".toList)
      (asciiToLower "fruit".toList) testStore).length = 2 ∧
    ∃ res : result,
      getArticleByTagAndDate asciiToLower testStore testQuery
        = (testStore, { Status := 200
                        Header := [("Content-Type".toList, "application/json".toList)]
                        Body := .jsonResult res }) ∧
      res.Count
        = (matchingPairs asciiToLower (dashDate "19941124".toList)
            (asciiToLower "fruit".toList) testStore).length ∧
      res.Count
        = (testStore.map fun e =>
            if e.2.Date = dashDate "19941124".toList then
              e.2.Tags.countP fun t => asciiToLower t = asciiToLower "fruit".toList
            else 0).sum :=
  ⟨⟨by decide, rfl⟩, by decide,
    C1_count_is_number_of_matching_pairs asciiToLower testStore testQuery
      "fruit".toList "19941124".toList rfl (by decide) rfl⟩

/-- C2: for every store and valid query, a string is among the related tags of
the result exactly when some stored article with the dashed date and with a tag
that is the queried tag case-insensitively also has that string among its tags,
the string lowercased being different from the lowercased queried tag; and no
string is among the related tags twice.  This holds in whatever order the set of
related tags is listed in the result. -/
theorem C2_related_tags_of_matching_articles (ToLower : Str → Str) (articles : Store)
    (r : Request) (tagSeg dateSeg : Str)
    (hm : r.Method = MethodGet) (hp : urlParams r.Path = [tagSeg, dateSeg])
    (hl : dateSeg.length = 8) :
    ∃ res : result,
      getArticleByTagAndDate ToLower articles r
        = (articles, { Status := 200
                       Header := [("Content-Type".toList, "application/json".toList)]
                       Body := .jsonResult res }) ∧
      ∀ related : List Str, related.Perm res.RelatedTags →
        (∀ s : Str, s ∈ related ↔
          ∃ e ∈ articles,
            (e.2.Date = dashDate dateSeg ∧ ∃ t ∈ e.2.Tags, ToLower t = ToLower tagSeg) ∧
            s ∈ e.2.Tags ∧ ToLower s ≠ ToLower tagSeg) ∧
        related.Nodup := by
  refine ⟨queryResult ToLower articles tagSeg dateSeg, ?_, ?_⟩
  · exact getArticleByTagAndDate_of_params ToLower articles r tagSeg dateSeg hm hp hl
  · intro related hperm
    refine ⟨fun s => ?_, ?_⟩
    · rw [hperm.mem_iff]
      exact mem_scan_relatedTags ToLower (dashDate dateSeg) (ToLower tagSeg) articles s
    · rw [hperm.nodup_iff]
      exact nodup_scan_relatedTags ToLower (dashDate dateSeg) (ToLower tagSeg) articles

/-- C2 at the store and the request of the test: the related tags are the four
of the test. -/
theorem C2_related_tags_of_matching_articles_witness :
    (urlParams testQuery.Path = ["fruit".toList, "19941124".toList] ∧
      "19941124".toList.length = 8) ∧
    ∃ res : result,
      getArticleByTagAndDate asciiToLower testStore testQuery
        = (testStore, { Status := 200
                        Header := [("Content-Type".toList, "application/json".toList)]
                        Body := .jsonResult res }) ∧
      ∀ related : List Str, related.Perm res.RelatedTags →
        (∀ s : Str, s ∈ related ↔
          ∃ e ∈ testStore,
            (e.2.Date = dashDate "19941124".toList ∧
              ∃ t ∈ e.2.Tags, asciiToLower t = asciiToLower "fruit".toList) ∧
            s ∈ e.2.Tags ∧ asciiToLower s ≠ asciiToLower "fruit".toList) ∧
        related.Nodup :=
  ⟨⟨by decide, rfl⟩,
    C2_related_tags_of_matching_articles asciiToLower testStore testQuery
      "fruit".toList "19941124".toList rfl (by decide) rfl⟩

/-- C3: for every store and valid query, every entry of the returned articles
list is the base-10 string of the key of a stored article with the dashed date
and with a tag that is the queried tag case-insensitively; and when the count is
at most 10, the key of every such article is in the list. -/
theorem C3_articles_are_matching_keys (ToLower : Str → Str) (articles : Store)
    (r : Request) (tagSeg dateSeg : Str)
    (hm : r.Method = MethodGet) (hp : urlParams r.Path = [tagSeg, dateSeg])
    (hl : dateSeg.length = 8) :
    ∃ res : result,
      getArticleByTagAndDate ToLower articles r
        = (articles, { Status := 200
                       Header := [("Content-Type".toList, "application/json".toList)]
                       Body := .jsonResult res }) ∧
      (∀ x ∈ res.Articles, ∃ e ∈ articles,
        x = Itoa e.1 ∧ e.2.Date = dashDate dateSeg ∧
          ∃ t ∈ e.2.Tags, ToLower t = ToLower tagSeg) ∧
      (res.Count ≤ 10 → ∀ e ∈ articles,
        e.2.Date = dashDate dateSeg → (∃ t ∈ e.2.Tags, ToLower t = ToLower tagSeg) →
          Itoa e.1 ∈ res.Articles) := by
  refine ⟨queryResult ToLower articles tagSeg dateSeg, ?_, ?_, ?_⟩
  · exact getArticleByTagAndDate_of_params ToLower articles r tagSeg dateSeg hm hp hl
  · intro x hx
    have hx' : x ∈ ((hits ToLower (dashDate dateSeg) (ToLower tagSeg) articles).map
        fun e => Itoa e.1).take 10 := by
      rw [← scan_Articles]; exact hx
    obtain ⟨e, he, rfl⟩ := List.mem_map.1 (List.mem_of_mem_take hx')
    obtain ⟨h1, h2, h3⟩ := (mem_hits ToLower _ _ articles e).1 he
    exact ⟨e, h1, rfl, h2, h3⟩
  · intro hc e he hdate htag
    have hc' : (hits ToLower (dashDate dateSeg) (ToLower tagSeg) articles).length ≤ 10 := by
      rw [← scan_Count]; exact hc
    show Itoa e.1 ∈ (scan ToLower _ _ articles).Articles
    rw [scan_Articles, List.take_of_length_le (by simpa using hc')]
    exact List.mem_map.2 ⟨e, (mem_hits ToLower _ _ articles e).2 ⟨he, hdate, htag⟩, rfl⟩

/-- C3 at the store and the request of the test: the list holds `3` and `12`. -/
theorem C3_articles_are_matching_keys_witness :
    (urlParams testQuery.Path = ["fruit".toList, "19941124".toList] ∧
      "19941124".toList.length = 8) ∧
    (queryResult asciiToLower testStore "fruit".toList "19941124".toList).Articles
      = ["3".toList, "12".toList] ∧
    ∃ res : result,
      getArticleByTagAndDate asciiToLower testStore testQuery
        = (testStore, { Status := 200
                        Header := [("Content-Type".toList, "application/json".toList)]
                        Body := .jsonResult res }) ∧
      (∀ x ∈ res.Articles, ∃ e ∈ testStore,
        x = Itoa e.1 ∧ e.2.Date = dashDate "19941124".toList ∧
          ∃ t ∈ e.2.Tags, asciiToLower t = asciiToLower "fruit".toList) ∧
      (res.Count ≤ 10 → ∀ e ∈ testStore,
        e.2.Date = dashDate "19941124".toList →
          (∃ t ∈ e.2.Tags, asciiToLower t = asciiToLower "fruit".toList) →
            Itoa e.1 ∈ res.Articles) :=
  ⟨⟨by decide, rfl⟩, by decide,
    C3_articles_are_matching_keys asciiToLower testStore testQuery
      "fruit".toList "19941124".toList rfl (by decide) rfl⟩

/-- C4: for every store and valid query, the length of the returned articles
list is the smaller of the count and 10; it never exceeds 10. -/
theorem C4_articles_length_is_min_count_ten (ToLower : Str → Str) (articles : Store)
    (r : Request) (tagSeg dateSeg : Str)
    (hm : r.Method = MethodGet) (hp : urlParams r.Path = [tagSeg, dateSeg])
    (hl : dateSeg.length = 8) :
    ∃ res : result,
      getArticleByTagAndDate ToLower articles r
        = (articles, { Status := 200
                       Header := [("Content-Type".toList, "application/json".toList)]
                       Body := .jsonResult res }) ∧
      res.Articles.length = min res.Count 10 ∧
      res.Articles.length ≤ 10 := by
  have hlen : (queryResult ToLower articles tagSeg dateSeg).Articles.length
      = min (queryResult ToLower articles tagSeg dateSeg).Count 10 := by
    show (scan ToLower _ _ articles).Articles.length = min (scan ToLower _ _ articles).Count 10
    rw [scan_Articles, scan_Count, List.length_take, List.length_map, Nat.min_comm]
  refine ⟨queryResult ToLower articles tagSeg dateSeg, ?_, hlen, ?_⟩
  · exact getArticleByTagAndDate_of_params ToLower articles r tagSeg dateSeg hm hp hl
  · rw [hlen]; exact Nat.min_le_right _ _

/-- C4 at a store with twelve matching articles, `GET /tags/go/20220101`: the
count is 12 and the list has 10 entries. -/
theorem C4_articles_length_is_min_count_ten_witness :
    (urlParams (tagDateRequest "go".toList "20220101".toList).Path
        = ["go".toList, "20220101".toList] ∧
      "20220101".toList.length = 8) ∧
    (queryResult asciiToLower twelveStore "go".toList "20220101".toList).Count = 12 ∧
    ∃ res : result,
      getArticleByTagAndDate asciiToLower twelveStore
          (tagDateRequest "go".toList "20220101".toList)
        = (twelveStore, { Status := 200
                          Header := [("Content-Type".toList, "application/json".toList)]
                          Body := .jsonResult res }) ∧
      res.Articles.length = min res.Count 10 ∧
      res.Articles.length ≤ 10 :=
  ⟨⟨by decide, rfl⟩, by decide,
    C4_articles_length_is_min_count_ten asciiToLower twelveStore
      (tagDateRequest "go".toList "20220101".toList) "go".toList "20220101".toList
      rfl (by decide) rfl⟩

/-! ## Creating and fetching an article -/

theorem mapGet_mapSet_self (s : Store) (k : Int) (v : article) :
    mapGet (mapSet s k v) k = some v := by
  simp [mapSet, mapGet]

theorem mapGet_filter_ne (s : Store) (k k' : Int) (h : k' ≠ k) :
    mapGet (s.filter fun e => decide (e.1 ≠ k)) k' = mapGet s k' := by
  induction s with
  | nil => rfl
  | cons e es ih =>
    obtain ⟨k0, v0⟩ := e
    by_cases h0 : k0 = k
    · have h0' : k0 ≠ k' := fun e => h (e ▸ h0)
      rw [@List.filter_cons_of_neg _ (fun e : Int × article => decide (e.1 ≠ k)) (k0, v0) es
        (by simp [h0]), ih]
      simp only [mapGet, h0', if_false]
    · have hf : decide ((k0, v0).1 ≠ k) = true := by simp [h0]
      rw [@List.filter_cons_of_pos _ (fun e : Int × article => decide (e.1 ≠ k)) (k0, v0) es hf]
      simp only [mapGet, ih]

theorem mapGet_mapSet_ne (s : Store) (k k' : Int) (v : article) (h : k' ≠ k) :
    mapGet (mapSet s k v) k' = mapGet s k' := by
  have hk : k ≠ k' := fun e => h e.symm
  simp only [mapSet, mapGet, hk, if_false]
  exact mapGet_filter_ne s k k' h

/-- A valid create request for a fresh id stores the article and answers 200
with an empty body. -/
theorem createArticle_fresh (articles : Store) (r : Request) (a : article) (k : Int)
    (hm : r.Method = MethodPost) (hc : r.ContentType = "application/json".toList)
    (hb : r.Decoded = .ok a) (hk : Atoi a.ID = some k) (hf : mapGet articles k = none) :
    createArticle articles r
      = (mapSet articles k a, { Status := 200, Header := [], Body := .text [] }) := by
  simp [createArticle, hm, hc, hb, hk, hf, StatusOK]

/-- A valid create request for an id that is a key of the store answers 400 and
leaves the store as it is. -/
theorem createArticle_duplicate (articles : Store) (r : Request) (a c : article) (k : Int)
    (hm : r.Method = MethodPost) (hc : r.ContentType = "application/json".toList)
    (hb : r.Decoded = .ok a) (hk : Atoi a.ID = some k) (hf : mapGet articles k = some c) :
    createArticle articles r
      = (articles, httpError [] "Article with that ID already exists".toList 400) := by
  simp [createArticle, hm, hc, hb, hk, hf, StatusBadRequest]

/-- A get request for an id stored in the map answers with its article. -/
theorem getArticle_found (articles : Store) (r : Request) (n : Str) (k : Int) (a : article)
    (hm : r.Method = MethodGet) (hp : r.Path = "/articles/".toList ++ n)
    (hk : Atoi n = some k) (hf : mapGet articles k = some a) :
    getArticle articles r
      = (articles, { Status := 200
                     Header := [("Content-Type".toList, "application/json".toList)]
                     Body := .jsonArticle a }) := by
  simp only [getArticle, hm, hp, TrimPrefix_append, hk, hf, StatusOK, ne_eq, not_true_eq_false,
    if_false]

/-- C5: round trip.  For every store and every article `a` whose id parses to an
integer that is not yet a key of the store, the create request for `a` succeeds
(status 200), and a get request on `/articles/<a.id>` to the store it leaves
answers 200 with an article equal to `a` in every field. -/
theorem C5_create_then_get_round_trip (articles : Store) (a : article) (k : Int)
    (rc rg : Request)
    (hcm : rc.Method = MethodPost) (hcc : rc.ContentType = "application/json".toList)
    (hcb : rc.Decoded = .ok a)
    (hk : Atoi a.ID = some k) (hfresh : mapGet articles k = none)
    (hgm : rg.Method = MethodGet) (hgp : rg.Path = "/articles/".toList ++ a.ID) :
    (createArticle articles rc).2.Status = 200 ∧
    ∃ a' : article,
      getArticle (createArticle articles rc).1 rg
        = ((createArticle articles rc).1,
            { Status := 200
              Header := [("Content-Type".toList, "application/json".toList)]
              Body := .jsonArticle a' }) ∧
      a'.ID = a.ID ∧ a'.Title = a.Title ∧ a'.Date = a.Date ∧ a'.Body = a.Body ∧
        a'.Tags = a.Tags ∧ a' = a := by
  rw [createArticle_fresh articles rc a k hcm hcc hcb hk hfresh]
  refine ⟨rfl, a, ?_, rfl, rfl, rfl, rfl, rfl, rfl⟩
  exact getArticle_found _ rg a.ID k a hgm hgp hk (mapGet_mapSet_self articles k a)

/-- C5 at the store of the test and the article of `TestCreateArticle`. -/
theorem C5_create_then_get_round_trip_witness :
    (Atoi testArticle.ID = some 1 ∧ mapGet testStore 1 = none) ∧
    (createArticle testStore (postArticle testArticle)).2.Status = 200 ∧
    ∃ a' : article,
      getArticle (createArticle testStore (postArticle testArticle)).1
          (getArticleRequest testArticle.ID)
        = ((createArticle testStore (postArticle testArticle)).1,
            { Status := 200
              Header := [("Content-Type".toList, "application/json".toList)]
              Body := .jsonArticle a' }) ∧
      a'.ID = testArticle.ID ∧ a'.Title = testArticle.Title ∧ a'.Date = testArticle.Date ∧
        a'.Body = testArticle.Body ∧ a'.Tags = testArticle.Tags ∧ a' = testArticle :=
  ⟨⟨by decide, by decide⟩,
    C5_create_then_get_round_trip testStore testArticle 1 (postArticle testArticle)
      (getArticleRequest testArticle.ID) rfl rfl rfl (by decide) (by decide) rfl rfl⟩

/-- C6, as stated, fails on a store that already holds the id: in the store
with `ta4` under `5`, creating `firstFive` and then `secondFive` (both with id
`5`) fails twice, and the entry under `5` holds `ta4`, not `firstFive`. -/
theorem C6_counterexample_id_already_stored :
    keysNodup [(5, ta4)] ∧
    Atoi firstFive.ID = some 5 ∧ Atoi secondFive.ID = some 5 ∧
    (createArticle (createArticle [(5, ta4)] (postArticle firstFive)).1
      (postArticle secondFive)).2.Status = 400 ∧
    mapGet (createArticle (createArticle [(5, ta4)] (postArticle firstFive)).1
      (postArticle secondFive)).1 5 = some ta4 ∧
    mapGet (createArticle (createArticle [(5, ta4)] (postArticle firstFive)).1
      (postArticle secondFive)).1 5 ≠ some firstFive := by
  decide

/-- C6, amended: for every store and every two articles `a` and `b` whose id
strings parse to the same integer `k`, in the create of `a` followed by the
create of `b` the second call answers 400 and leaves the store exactly as the
first call left it; when `k` was not a key before the first call the entry under
`k` holds `a`, and when `k` was a key the entry holds the article it held
before. -/
theorem C6_second_create_fails_and_keeps_store (articles : Store) (a b : article) (k : Int)
    (ra rb : Request)
    (ham : ra.Method = MethodPost) (hac : ra.ContentType = "application/json".toList)
    (hab : ra.Decoded = .ok a)
    (hbm : rb.Method = MethodPost) (hbc : rb.ContentType = "application/json".toList)
    (hbb : rb.Decoded = .ok b)
    (hka : Atoi a.ID = some k) (hkb : Atoi b.ID = some k) :
    (createArticle (createArticle articles ra).1 rb).2.Status = 400 ∧
    (createArticle (createArticle articles ra).1 rb).1 = (createArticle articles ra).1 ∧
    (mapGet articles k = none →
      (createArticle articles ra).2.Status = 200 ∧
      mapGet (createArticle (createArticle articles ra).1 rb).1 k = some a) ∧
    (∀ c, mapGet articles k = some c →
      (createArticle articles ra).2.Status = 400 ∧
      (createArticle (createArticle articles ra).1 rb).1 = articles ∧
      mapGet (createArticle (createArticle articles ra).1 rb).1 k = some c) := by
  cases hf : mapGet articles k with
  | none =>
    rw [createArticle_fresh articles ra a k ham hac hab hka hf]
    rw [createArticle_duplicate (mapSet articles k a) rb b a k hbm hbc hbb hkb
      (mapGet_mapSet_self articles k a)]
    refine ⟨rfl, rfl, fun _ => ⟨rfl, mapGet_mapSet_self articles k a⟩, ?_⟩
    intro c hc
    cases hc
  | some c =>
    rw [createArticle_duplicate articles ra a c k ham hac hab hka hf]
    rw [createArticle_duplicate articles rb b c k hbm hbc hbb hkb hf]
    refine ⟨rfl, rfl, ?_, ?_⟩
    · intro h
      cases h
    · intro c' hc'
      exact ⟨rfl, rfl, hc' ▸ hf⟩

/-- C6, amended, at the empty store and at the articles `firstFive` and
`secondFive`. -/
theorem C6_second_create_fails_and_keeps_store_witness :
    (Atoi firstFive.ID = some 5 ∧ Atoi secondFive.ID = some 5) ∧
    (createArticle (createArticle [] (postArticle firstFive)).1
      (postArticle secondFive)).2.Status = 400 ∧
    (createArticle (createArticle [] (postArticle firstFive)).1 (postArticle secondFive)).1
      = (createArticle [] (postArticle firstFive)).1 ∧
    (mapGet [] 5 = none →
      (createArticle [] (postArticle firstFive)).2.Status = 200 ∧
      mapGet (createArticle (createArticle [] (postArticle firstFive)).1
        (postArticle secondFive)).1 5 = some firstFive) ∧
    (∀ c, mapGet [] 5 = some c →
      (createArticle [] (postArticle firstFive)).2.Status = 400 ∧
      (createArticle (createArticle [] (postArticle firstFive)).1
        (postArticle secondFive)).1 = [] ∧
      mapGet (createArticle (createArticle [] (postArticle firstFive)).1
        (postArticle secondFive)).1 5 = some c) :=
  ⟨⟨by decide, by decide⟩,
    C6_second_create_fails_and_keeps_store [] firstFive secondFive 5
      (postArticle firstFive) (postArticle secondFive) rfl rfl rfl rfl rfl rfl
      (by decide) (by decide)⟩

/-- C7: for every request and store, the status of `createArticle` is the one of
the first failing check in the order method (405), content type (415), decoding
(400), id parsing (400), id already a key (400); and the answer is 200 with an
empty body exactly when no check fails. -/
theorem C7_create_status_is_first_failing_check (articles : Store) (r : Request) :
    (createArticle articles r).2.Status = firstFailing (createChecks articles r) ∧
    (r.Method ≠ MethodPost → (createArticle articles r).2.Status = 405) ∧
    (r.Method = MethodPost → r.ContentType ≠ "application/json".toList →
      (createArticle articles r).2.Status = 415) ∧
    (r.Method = MethodPost → r.ContentType = "application/json".toList →
      ∀ msg, r.Decoded = .error msg → (createArticle articles r).2.Status = 400) ∧
    (r.Method = MethodPost → r.ContentType = "application/json".toList →
      ∀ a, r.Decoded = .ok a → Atoi a.ID = none →
        (createArticle articles r).2.Status = 400) ∧
    (r.Method = MethodPost → r.ContentType = "application/json".toList →
      ∀ a id c, r.Decoded = .ok a → Atoi a.ID = some id → mapGet articles id = some c →
        (createArticle articles r).2.Status = 400) ∧
    (((createArticle articles r).2.Status = 200 ∧ (createArticle articles r).2.Body = .text [])
      ↔ (r.Method = MethodPost ∧ r.ContentType = "application/json".toList ∧
          ∃ a id, r.Decoded = .ok a ∧ Atoi a.ID = some id ∧ mapGet articles id = none)) ∧
    ((createArticle articles r).2.Status = 200
      ↔ ∀ c ∈ createChecks articles r, c.1 = false) := by
  unfold createArticle createChecks
  generalize "application/json".toList = json
  generalize MethodPost = post
  by_cases hm : r.Method = post
  · by_cases hc : r.ContentType = json
    · cases hb : r.Decoded with
      | error msg =>
        simp [firstFailing, hm, hc, httpError, StatusBadRequest]
      | ok a =>
        cases hk : Atoi a.ID with
        | none =>
          simp [firstFailing, hm, hc, hk, httpError, StatusBadRequest]
        | some id =>
          cases hf : mapGet articles id with
          | none =>
            simp [firstFailing, hm, hc, hk, hf, StatusOK]
            rintro a' id' c rfl hk' hf'
            rw [hk] at hk'
            cases hk'
            rw [hf] at hf'
            cases hf'
          | some c =>
            simp [firstFailing, hm, hc, hk, hf, httpError, StatusBadRequest]
    · simp [firstFailing, hm, hc, httpError, StatusUnsupportedMediaType]
  · simp [firstFailing, hm, methodNotAllowed, httpError, StatusMethodNotAllowed]

/-- C7 at concrete requests to the store of the test: a GET, a wrong content
type, a body that does not decode, an id that is not a number, an id that is a
key, and a valid request. -/
theorem C7_create_status_is_first_failing_check_witness :
    (createArticle testStore (getArticleRequest "1".toList)).2.Status = 405 ∧
    (createArticle testStore
      { Method := MethodPost, Path := "/articles".toList, ContentType := "text/plain".toList
        Decoded := .ok testArticle }).2.Status = 415 ∧
    (createArticle testStore
      { Method := MethodPost, Path := "/articles".toList
        ContentType := "application/json".toList
        Decoded := .error "unexpected EOF".toList }).2.Status = 400 ∧
    (createArticle testStore (postArticle { testArticle with ID := "one".toList })).2.Status
      = 400 ∧
    (createArticle testStore (postArticle firstFive)).2.Status = 400 ∧
    (createArticle testStore (postArticle testArticle)).2
      = { Status := 200, Header := [], Body := .text [] } :=
  ⟨(C7_create_status_is_first_failing_check testStore (getArticleRequest "1".toList)).2.1
      (by decide),
    by decide, by decide, by decide, by decide, by decide⟩

/-- C8: for every store and every GET request on `/articles/<n>` where `n`
parses to an integer that is not a key of the store, `getArticle` answers with
status 200 and the plain-text body `Article not found`, not with an error
status, and leaves the store unchanged. -/
theorem C8_get_missing_article_answers_200_not_found (articles : Store) (r : Request)
    (n : Str) (k : Int)
    (hm : r.Method = MethodGet) (hp : r.Path = "/articles/".toList ++ n)
    (hk : Atoi n = some k) (hf : mapGet articles k = none) :
    getArticle articles r
      = (articles, { Status := 200, Header := [], Body := .text "Article not found".toList }) ∧
    (getArticle articles r).2.Status = 200 ∧
    (getArticle articles r).2.Body = .text "Article not found".toList ∧
    (getArticle articles r).1 = articles := by
  have h : getArticle articles r
      = (articles, { Status := 200, Header := [], Body := .text "Article not found".toList }) := by
    simp only [getArticle, hm, hp, TrimPrefix_append, hk, hf, StatusOK, ne_eq,
      not_true_eq_false, if_false]
  rw [h]
  exact ⟨rfl, rfl, rfl, rfl⟩

/-- C8 at the store of the test: `GET /articles/13`. -/
theorem C8_get_missing_article_answers_200_not_found_witness :
    (Atoi "13".toList = some 13 ∧ mapGet testStore 13 = none) ∧
    getArticle testStore (getArticleRequest "13".toList)
      = (testStore,
          { Status := 200, Header := [], Body := .text "Article not found".toList }) ∧
    (getArticle testStore (getArticleRequest "13".toList)).2.Status = 200 ∧
    (getArticle testStore (getArticleRequest "13".toList)).2.Body
      = .text "Article not found".toList ∧
    (getArticle testStore (getArticleRequest "13".toList)).1 = testStore :=
  ⟨⟨by decide, by decide⟩,
    C8_get_missing_article_answers_200_not_found testStore (getArticleRequest "13".toList)
      "13".toList 13 rfl rfl (by decide) (by decide)⟩

/-- C9: for every store and every GET request whose date segment has a length
other than 8, whatever the tag segment, the answer is status 400 through
`http.Error`, the body being a plain-text message and not a query result; the
store is unchanged.  The date segment is the second URL parameter of the path,
or the `<date>` of a path `/tags/<tag>/<date>` with slash-free segments (which
covers the empty date of `/tags/<tag>/`). -/
theorem C9_bad_date_length_is_400 (ToLower : Str → Str) (articles : Store) (r : Request)
    (tagSeg dateSeg : Str)
    (hm : r.Method = MethodGet)
    (hp : urlParams r.Path = [tagSeg, dateSeg] ∨
      (r.Path = "/tags/".toList ++ tagSeg ++ "/".toList ++ dateSeg ∧
        '/' ∉ tagSeg ∧ '/' ∉ dateSeg))
    (hl : dateSeg.length ≠ 8) :
    (getArticleByTagAndDate ToLower articles r).2.Status = 400 ∧
    ((getArticleByTagAndDate ToLower articles r).2
        = httpError [] "Invalid date format - use yyyymmdd".toList 400 ∨
      (getArticleByTagAndDate ToLower articles r).2
        = httpError [] "Invalid URL parameters".toList 400) ∧
    (∀ res : result, (getArticleByTagAndDate ToLower articles r).2.Body ≠ .jsonResult res) ∧
    (getArticleByTagAndDate ToLower articles r).1 = articles := by
  have hparams : urlParams r.Path = [tagSeg, dateSeg] ∨ urlParams r.Path = [tagSeg] := by
    rcases hp with hp | ⟨hp, ht, hd⟩
    · exact Or.inl hp
    · by_cases hne : dateSeg = []
      · subst hne
        rw [hp, List.append_nil]
        exact Or.inr (urlParams_empty_date tagSeg ht)
      · rw [hp]
        exact Or.inl (urlParams_segments tagSeg dateSeg ht hd hne)
  rcases hparams with hparams | hparams
  · have h : getArticleByTagAndDate ToLower articles r
        = (articles, httpError [] "Invalid date format - use yyyymmdd".toList 400) := by
      simp only [getArticleByTagAndDate, hm, hparams, StatusBadRequest, ne_eq,
        not_true_eq_false, if_false, hl, not_false_eq_true, if_true]
    rw [h]
    exact ⟨rfl, Or.inl rfl, fun res hres => (by cases hres), rfl⟩
  · have h : getArticleByTagAndDate ToLower articles r
        = (articles, httpError [] "Invalid URL parameters".toList 400) := by
      simp only [getArticleByTagAndDate, hm, hparams, StatusBadRequest, ne_eq,
        not_true_eq_false, if_false]
    rw [h]
    exact ⟨rfl, Or.inr rfl, fun res hres => (by cases hres), rfl⟩

/-- C9 at the store of the test: `GET /tags/fruit/1994112`, a date of seven
bytes with a tag that does match articles. -/
theorem C9_bad_date_length_is_400_witness :
    (urlParams (tagDateRequest "fruit".toList "1994112".toList).Path
        = ["fruit".toList, "1994112".toList] ∧
      "1994112".toList.length ≠ 8) ∧
    (getArticleByTagAndDate asciiToLower testStore
      (tagDateRequest "fruit".toList "1994112".toList)).2.Status = 400 ∧
    ((getArticleByTagAndDate asciiToLower testStore
        (tagDateRequest "fruit".toList "1994112".toList)).2
        = httpError [] "Invalid date format - use yyyymmdd".toList 400 ∨
      (getArticleByTagAndDate asciiToLower testStore
        (tagDateRequest "fruit".toList "1994112".toList)).2
        = httpError [] "Invalid URL parameters".toList 400) ∧
    (∀ res : result,
      (getArticleByTagAndDate asciiToLower testStore
        (tagDateRequest "fruit".toList "1994112".toList)).2.Body ≠ .jsonResult res) ∧
    (getArticleByTagAndDate asciiToLower testStore
      (tagDateRequest "fruit".toList "1994112".toList)).1 = testStore :=
  ⟨⟨by decide, by decide⟩,
    C9_bad_date_length_is_400 asciiToLower testStore
      (tagDateRequest "fruit".toList "1994112".toList) "fruit".toList "1994112".toList
      rfl (Or.inl (by decide)) (by decide)⟩

/-- C10, as stated, fails on an empty tag segment: `GET /tags//19941124` splits
into the empty segment and `19941124`, and the handler accepts it: status 200 and
the result of the query for the tag `""`. -/
theorem C10_counterexample_empty_tag_accepted :
    urlParams "/tags//19941124".toList = [[], "19941124".toList] ∧
    getArticleByTagAndDate asciiToLower testStore
        { Method := MethodGet, Path := "/tags//19941124".toList, ContentType := []
          Decoded := .error [] }
      = (testStore,
          { Status := 200
            Header := [("Content-Type".toList, "application/json".toList)]
            Body := .jsonResult { Tag := [], Count := 0, Articles := [], RelatedTags := [] } }) := by
  decide

/-- C10, amended: `getArticleByTagAndDate` accepts a GET path (status 200 with a
query result) exactly when the path, without the prefix `/tags/` and without one
trailing slash, splits at the slashes into exactly two segments of which the
second has length 8; the first segment may be empty.  Every other path is
answered with status 400 and no result. -/
theorem C10_accepts_iff_two_segments_and_date_length (ToLower : Str → Str) (articles : Store)
    (r : Request) (hm : r.Method = MethodGet) :
    ((getArticleByTagAndDate ToLower articles r).2.Status = 200 ↔
      ∃ p0 p1 : Str,
        Split (TrimSuffix (TrimPrefix r.Path "/tags/".toList) "/".toList) '/' = [p0, p1] ∧
        p1.length = 8) ∧
    (∀ p0 p1 : Str,
      Split (TrimSuffix (TrimPrefix r.Path "/tags/".toList) "/".toList) '/' = [p0, p1] →
      p1.length = 8 →
      (getArticleByTagAndDate ToLower articles r).2
        = { Status := 200
            Header := [("Content-Type".toList, "application/json".toList)]
            Body := .jsonResult (queryResult ToLower articles p0 p1) }) ∧
    ((¬ ∃ p0 p1 : Str,
        Split (TrimSuffix (TrimPrefix r.Path "/tags/".toList) "/".toList) '/' = [p0, p1] ∧
        p1.length = 8) →
      (getArticleByTagAndDate ToLower articles r).2.Status = 400 ∧
      ∀ res : result, (getArticleByTagAndDate ToLower articles r).2.Body ≠ .jsonResult res) := by
  have hu : Split (TrimSuffix (TrimPrefix r.Path "/tags/".toList) "/".toList) '/'
      = urlParams r.Path := rfl
  rw [hu]
  have key : (∃ p0 p1 : Str, urlParams r.Path = [p0, p1] ∧ p1.length = 8) ∨
      ((¬ ∃ p0 p1 : Str, urlParams r.Path = [p0, p1] ∧ p1.length = 8) ∧
        ∃ msg, getArticleByTagAndDate ToLower articles r
          = (articles, httpError [] msg 400)) := by
    unfold getArticleByTagAndDate
    simp only [hm, ne_eq, not_true_eq_false, if_false]
    generalize urlParams r.Path = ps
    match ps with
    | [] => exact Or.inr ⟨by simp, _, rfl⟩
    | [_] => exact Or.inr ⟨by simp, _, rfl⟩
    | [p0, p1] =>
      by_cases hl : p1.length = 8
      · exact Or.inl ⟨p0, p1, rfl, hl⟩
      · refine Or.inr ⟨?_, "Invalid date format - use yyyymmdd".toList, ?_⟩
        · rintro ⟨q0, q1, hq, hql⟩
          simp only [List.cons.injEq, and_true] at hq
          exact hl (hq.2 ▸ hql)
        · simp only [hl, not_false_eq_true, if_true, StatusBadRequest]
    | _ :: _ :: _ :: _ => exact Or.inr ⟨by simp, _, rfl⟩
  rcases key with ⟨p0, p1, hp, hl⟩ | ⟨hno, msg, hmsg⟩
  · have h := getArticleByTagAndDate_of_params ToLower articles r p0 p1 hm hp hl
    rw [h]
    refine ⟨⟨fun _ => ⟨p0, p1, hp, hl⟩, fun _ => rfl⟩, ?_, ?_⟩
    · intro q0 q1 hq _
      rw [hp] at hq
      simp only [List.cons.injEq, and_true] at hq
      rw [hq.1, hq.2]
      rfl
    · intro hno
      exact absurd ⟨p0, p1, hp, hl⟩ hno
  · rw [hmsg]
    refine ⟨⟨fun h => ?_, fun h => absurd h hno⟩, ?_, ?_⟩
    · have h' : (400 : Nat) = 200 := h
      exact absurd h' (by decide)
    · intro q0 q1 hq hql
      exact absurd ⟨q0, q1, hq, hql⟩ hno
    · intro _
      exact ⟨rfl, fun res hres => by cases hres⟩

/-- C10, amended, at the store of the test and the path of the test,
`/tags/fruit/19941124/`. -/
theorem C10_accepts_iff_two_segments_and_date_length_witness :
    (getArticleByTagAndDate asciiToLower testStore
      { Method := MethodGet, Path := "/tags/fruit/19941124/".toList, ContentType := []
        Decoded := .error [] }).2.Status = 200 :=
  (C10_accepts_iff_two_segments_and_date_length asciiToLower testStore
      { Method := MethodGet, Path := "/tags/fruit/19941124/".toList, ContentType := []
        Decoded := .error [] } rfl).1.2
    ⟨"fruit".toList, "19941124".toList, by decide, by decide⟩

/-! ## The count and the articles found -/

/-- C11 at a failing input: in the store with one article of the queried day
whose tags are `Fruit` and `fruit`, one article matches the query
`GET /tags/fruit/19941124`, and the handler answers with the count 2 and lists
the id `1` twice. -/
theorem C11_count_is_two_for_one_article_with_doubled_tag :
    keysNodup doubledStore ∧
    (doubledStore.filter fun e =>
      decide (e.2.Date = dashDate "19941124".toList ∧
        ∃ t ∈ e.2.Tags, asciiToLower t = asciiToLower "fruit".toList)).length = 1 ∧
    getArticleByTagAndDate asciiToLower doubledStore
        (tagDateRequest "fruit".toList "19941124".toList)
      = (doubledStore,
          { Status := 200
            Header := [("Content-Type".toList, "application/json".toList)]
            Body := .jsonResult
              { Tag := "fruit".toList, Count := 2, Articles := ["1".toList, "1".toList]
                RelatedTags := [] } }) := by
  decide

/-! ## The date of the query -/

theorem length_eight (d : Str) (hl : d.length = 8) :
    ∃ c0 c1 c2 c3 c4 c5 c6 c7 : Char, d = [c0, c1, c2, c3, c4, c5, c6, c7] := by
  match d, hl with
  | [c0, c1, c2, c3, c4, c5, c6, c7], _ => exact ⟨c0, c1, c2, c3, c4, c5, c6, c7, rfl⟩

theorem foldl_articleStep_filter_date (ToLower : Str → Str) (date tag : Str) (articles : Store)
    (st : ScanState) :
    (articles.filter fun e => decide (e.2.Date = date)).foldl (articleStep ToLower date tag) st
      = articles.foldl (articleStep ToLower date tag) st := by
  induction articles generalizing st with
  | nil => rfl
  | cons e es ih =>
    by_cases h : e.2.Date = date
    · rw [List.filter_cons_of_pos (by simpa using h), List.foldl_cons, List.foldl_cons, ih]
    · rw [List.filter_cons_of_neg (by simpa using h), List.foldl_cons, ih]
      simp only [articleStep, h, if_false]

/-- C12: for every date segment `d` of length 8, the date string compared with
the stored articles is `d[0:4] + "-" + d[4:6] + "-" + d[6:8]`: it has length 10,
holds a dash at the positions 4 and 7 and the bytes of `d` in order at the
other positions, and without those two dashes it is `d`.  Nothing of `d` is
validated: the articles whose stored date string is not literally this string
have no part in the result, and an article alone in the store is counted exactly
when its date string is this string and it carries the queried tag. -/
theorem C12_date_is_dashed_and_compared_literally (ToLower : Str → Str) (d : Str)
    (hl : d.length = 8) :
    dashDate d = d.take 4 ++ ['-'] ++ (d.drop 4).take 2 ++ ['-'] ++ (d.drop 6).take 2 ∧
    (dashDate d).length = 10 ∧
    (dashDate d)[4]? = some '-' ∧ (dashDate d)[7]? = some '-' ∧
    (∀ i, i < 4 → (dashDate d)[i]? = d[i]?) ∧
    (∀ i, i < 2 → (dashDate d)[5 + i]? = d[4 + i]?) ∧
    (∀ i, i < 2 → (dashDate d)[8 + i]? = d[6 + i]?) ∧
    ((dashDate d).eraseIdx 7).eraseIdx 4 = d ∧
    (∀ (articles : Store) (tagSeg : Str),
      queryResult ToLower articles tagSeg d
        = queryResult ToLower
            (articles.filter fun e => decide (e.2.Date = dashDate d)) tagSeg d) ∧
    (∀ (e : Int × article) (tagSeg : Str),
      (queryResult ToLower [e] tagSeg d).Count ≠ 0 ↔
        (e.2.Date = dashDate d ∧ ∃ t ∈ e.2.Tags, ToLower t = ToLower tagSeg)) := by
  obtain ⟨c0, c1, c2, c3, c4, c5, c6, c7, rfl⟩ := length_eight d hl
  refine ⟨rfl, rfl, rfl, rfl, ?_, ?_, ?_, rfl, ?_, ?_⟩
  · intro i hi
    interval_cases i <;> rfl
  · intro i hi
    interval_cases i <;> rfl
  · intro i hi
    interval_cases i <;> rfl
  · intro articles tagSeg
    simp only [queryResult, scan]
    rw [foldl_articleStep_filter_date]
  · intro e tagSeg
    show (scan ToLower _ _ [e]).Count ≠ 0 ↔ _
    rw [scan_Count]
    constructor
    · intro h
      obtain ⟨x, hx⟩ := List.exists_mem_of_length_pos (Nat.pos_of_ne_zero h)
      obtain ⟨h1, h2, h3⟩ := (mem_hits ToLower _ _ [e] x).1 hx
      rw [List.mem_singleton] at h1
      subst h1
      exact ⟨h2, h3⟩
    · rintro ⟨h2, h3⟩
      have hx := (mem_hits ToLower _ _ [e] e).2 ⟨List.mem_singleton.2 rfl, h2, h3⟩
      exact Nat.ne_of_gt (List.length_pos_of_mem hx)

/-- C12 at the date segment `99999999`, which is no calendar date: the date
string is `9999-99-99`. -/
theorem C12_date_is_dashed_and_compared_literally_witness :
    "99999999".toList.length = 8 ∧ dashDate "99999999".toList = "9999-99-99".toList ∧
    (dashDate "99999999".toList).length = 10 ∧
    ((dashDate "99999999".toList).eraseIdx 7).eraseIdx 4 = "99999999".toList :=
  ⟨rfl, by decide,
    (C12_date_is_dashed_and_compared_literally asciiToLower "99999999".toList rfl).2.1,
    (C12_date_is_dashed_and_compared_literally asciiToLower "99999999".toList rfl).2.2.2.2.2.2.2.1⟩

/-! ## The case of the queried tag -/

theorem asciiLowerChar_idem (c : Char) :
    (fun c : Char => if 'A' ≤ c ∧ c ≤ 'Z' then Char.ofNat (c.toNat + 32) else c)
      ((fun c : Char => if 'A' ≤ c ∧ c ≤ 'Z' then Char.ofNat (c.toNat + 32) else c) c)
      = (fun c : Char => if 'A' ≤ c ∧ c ≤ 'Z' then Char.ofNat (c.toNat + 32) else c) c := by
  by_cases h : 'A' ≤ c ∧ c ≤ 'Z'
  · have h1 : 65 ≤ c.toNat := h.1
    have h2 : c.toNat ≤ 90 := h.2
    have hc : c = Char.ofNat c.toNat := (Char.ofNat_toNat c).symm
    generalize c.toNat = n at h1 h2 hc
    subst hc
    interval_cases n <;> decide
  · simp only [h, if_false]

/-- Lowercasing ASCII text twice is lowercasing it once. -/
theorem asciiToLower_idem (s : Str) : asciiToLower (asciiToLower s) = asciiToLower s := by
  unfold asciiToLower
  rw [List.map_map]
  apply List.map_congr_left
  intro c _
  exact asciiLowerChar_idem c

/-- C13: the query is case-insensitive in the queried tag.  For every store, tag
segment `T` and date segment, the tag of the result is `T` lowercased, and the
whole answer (tag, count, articles, related tags) is the one given for `T`
lowercased and for every other tag segment with the same lowercase form.
Lowercasing is taken to be idempotent, as `strings.ToLower` is. -/
theorem C13_query_is_case_insensitive_in_the_tag (ToLower : Str → Str)
    (hidem : ∀ s, ToLower (ToLower s) = ToLower s)
    (articles : Store) (r : Request) (T dateSeg : Str)
    (hm : r.Method = MethodGet) (hp : urlParams r.Path = [T, dateSeg])
    (hl : dateSeg.length = 8) :
    ∃ res : result,
      getArticleByTagAndDate ToLower articles r
        = (articles, { Status := 200
                       Header := [("Content-Type".toList, "application/json".toList)]
                       Body := .jsonResult res }) ∧
      res.Tag = ToLower T ∧
      (∀ r' : Request, r'.Method = MethodGet → urlParams r'.Path = [ToLower T, dateSeg] →
        getArticleByTagAndDate ToLower articles r'
          = (articles, { Status := 200
                         Header := [("Content-Type".toList, "application/json".toList)]
                         Body := .jsonResult res })) ∧
      (∀ (r' : Request) (T' : Str), r'.Method = MethodGet →
        urlParams r'.Path = [T', dateSeg] → ToLower T' = ToLower T →
        getArticleByTagAndDate ToLower articles r'
          = (articles, { Status := 200
                         Header := [("Content-Type".toList, "application/json".toList)]
                         Body := .jsonResult res })) := by
  have key : ∀ (r' : Request) (T' : Str), r'.Method = MethodGet →
      urlParams r'.Path = [T', dateSeg] → ToLower T' = ToLower T →
      getArticleByTagAndDate ToLower articles r'
        = (articles, { Status := 200
                       Header := [("Content-Type".toList, "application/json".toList)]
                       Body := .jsonResult (queryResult ToLower articles T dateSeg) }) := by
    intro r' T' hm' hp' hT
    rw [getArticleByTagAndDate_of_params ToLower articles r' T' dateSeg hm' hp' hl]
    simp only [queryResult, hT, StatusOK]
  refine ⟨queryResult ToLower articles T dateSeg, key r T hm hp rfl, rfl, ?_, key⟩
  intro r' hm' hp'
  exact key r' (ToLower T) hm' hp' (hidem T)

/-- C13 at the store of the test: `GET /tags/FRUIT/19941124` and
`GET /tags/fruit/19941124` get the answer of `GET /tags/Fruit/19941124`, whose
tag is `fruit`. -/
theorem C13_query_is_case_insensitive_in_the_tag_witness :
    (∀ s, asciiToLower (asciiToLower s) = asciiToLower s) ∧
    asciiToLower "Fruit".toList = "fruit".toList ∧
    asciiToLower "FRUIT".toList = asciiToLower "Fruit".toList ∧
    ∃ res : result,
      getArticleByTagAndDate asciiToLower testStore
          (tagDateRequest "Fruit".toList "19941124".toList)
        = (testStore, { Status := 200
                        Header := [("Content-Type".toList, "application/json".toList)]
                        Body := .jsonResult res }) ∧
      res.Tag = asciiToLower "Fruit".toList ∧
      getArticleByTagAndDate asciiToLower testStore
          (tagDateRequest "fruit".toList "19941124".toList)
        = (testStore, { Status := 200
                        Header := [("Content-Type".toList, "application/json".toList)]
                        Body := .jsonResult res }) ∧
      getArticleByTagAndDate asciiToLower testStore
          (tagDateRequest "FRUIT".toList "19941124".toList)
        = (testStore, { Status := 200
                        Header := [("Content-Type".toList, "application/json".toList)]
                        Body := .jsonResult res }) := by
  obtain ⟨res, h1, h2, h3, h4⟩ :=
    C13_query_is_case_insensitive_in_the_tag asciiToLower asciiToLower_idem testStore
      (tagDateRequest "Fruit".toList "19941124".toList) "Fruit".toList "19941124".toList
      rfl (by decide) rfl
  refine ⟨asciiToLower_idem, by decide, by decide, res, h1, h2, ?_, ?_⟩
  · exact h3 (tagDateRequest "fruit".toList "19941124".toList) rfl (by decide)
  · exact h4 (tagDateRequest "FRUIT".toList "19941124".toList) "FRUIT".toList rfl
      (by decide) (by decide)

/-! ## Trailing slashes -/

/-- C14 at a failing input: at the store of the test, `GET /tags/fruit/19941124`
and the same path with one trailing slash get the same answer with status 200,
but with two trailing slashes only one is trimmed, three URL parameters are
left and the answer is 400. -/
theorem C14_two_trailing_slashes_are_rejected :
    (getArticleByTagAndDate asciiToLower testStore
      (tagDateRequest "fruit".toList "19941124".toList)).2.Status = 200 ∧
    getArticleByTagAndDate asciiToLower testStore
        (tagDateRequest "fruit".toList "19941124/".toList)
      = getArticleByTagAndDate asciiToLower testStore
          (tagDateRequest "fruit".toList "19941124".toList) ∧
    (tagDateRequest "fruit".toList "19941124//".toList).Path
      = "/tags/fruit/19941124//".toList ∧
    urlParams "/tags/fruit/19941124//".toList = ["fruit".toList, "19941124".toList, []] ∧
    (getArticleByTagAndDate asciiToLower testStore
        (tagDateRequest "fruit".toList "19941124//".toList)).2
      = httpError [] "Invalid URL parameters".toList 400 := by
  decide

/-! ## What the handlers change in the store -/

theorem filter_ne_of_mapGet_none (s : Store) (k : Int) (h : mapGet s k = none) :
    (s.filter fun e => decide (e.1 ≠ k)) = s := by
  rw [List.filter_eq_self]
  intro e he
  have hk := (mapGet_eq_none_iff s k).1 h
  have : e.1 ≠ k := fun heq => hk (heq ▸ List.mem_map_of_mem Prod.fst he)
  simpa using this

/-- The two outcomes of `createArticle`: an answer other than 200 with the
store as it was, or a valid request for a fresh id, stored and answered 200. -/
theorem createArticle_cases (articles : Store) (r : Request) :
    (∃ resp : Response, createArticle articles r = (articles, resp) ∧ resp.Status ≠ 200) ∨
    (∃ (a : article) (id : Int),
      r.Method = MethodPost ∧ r.ContentType = "application/json".toList ∧
      r.Decoded = .ok a ∧ Atoi a.ID = some id ∧ mapGet articles id = none ∧
      createArticle articles r
        = (mapSet articles id a, { Status := 200, Header := [], Body := .text [] })) := by
  have h400 : ∀ msg : Str, (httpError [] msg StatusBadRequest).Status ≠ 200 := by
    intro msg
    simp [httpError, StatusBadRequest]
  by_cases hm : r.Method = MethodPost
  · by_cases hc : r.ContentType = "application/json".toList
    · cases hd : r.Decoded with
      | error msg =>
        refine Or.inl ⟨httpError [] msg StatusBadRequest, ?_, h400 msg⟩
        simp only [createArticle, hm, hc, hd, ne_eq, not_true_eq_false, if_false]
      | ok a =>
        cases hk : Atoi a.ID with
        | none =>
          refine Or.inl ⟨httpError [] "Invalid ID - Not a valid number".toList StatusBadRequest,
            ?_, h400 _⟩
          simp only [createArticle, hm, hc, hd, hk, ne_eq, not_true_eq_false, if_false]
        | some id =>
          cases hf : mapGet articles id with
          | none =>
            exact Or.inr ⟨a, id, hm, hc, rfl, hk, hf,
              createArticle_fresh articles r a id hm hc hd hk hf⟩
          | some c =>
            exact Or.inl ⟨_, createArticle_duplicate articles r a c id hm hc hd hk hf, h400 _⟩
    · refine Or.inl ⟨httpError [] "Content-Type header is not set to application/json".toList
        StatusUnsupportedMediaType, ?_, by simp [httpError, StatusUnsupportedMediaType]⟩
      simp only [createArticle, hm, hc, ne_eq, not_true_eq_false, if_false,
        not_false_eq_true, if_true]
  · refine Or.inl ⟨methodNotAllowed MethodPost, ?_,
      by simp [methodNotAllowed, httpError, StatusMethodNotAllowed]⟩
    simp only [createArticle, hm, ne_eq, not_false_eq_true, if_true]

/-- The handler `getArticle` does not write the store. -/
theorem getArticle_fst (articles : Store) (r : Request) :
    (getArticle articles r).1 = articles := by
  unfold getArticle
  split
  · rfl
  · simp only
    split
    · rfl
    · split <;> rfl

/-- The handler `getArticleByTagAndDate` does not write the store. -/
theorem getArticleByTagAndDate_fst (ToLower : Str → Str) (articles : Store) (r : Request) :
    (getArticleByTagAndDate ToLower articles r).1 = articles := by
  unfold getArticleByTagAndDate
  split
  · rfl
  · split
    · split <;> rfl
    · rfl

/-- C15: every operation touches at most one store entry.  `createArticle`
changes the store only when it answers 200, and then the new store is the old
one with one entry added, under the parsed id of the decoded article, which was
no key before: every other key keeps its article.  `getArticle` and
`getArticleByTagAndDate` leave the store unchanged on every request. -/
theorem C15_handlers_touch_at_most_one_entry (ToLower : Str → Str) (articles : Store)
    (r : Request) :
    ((createArticle articles r).2.Status ≠ 200 → (createArticle articles r).1 = articles) ∧
    ((createArticle articles r).2.Status = 200 →
      ∃ (a : article) (id : Int),
        r.Decoded = .ok a ∧ Atoi a.ID = some id ∧ mapGet articles id = none ∧
        (createArticle articles r).1 = (id, a) :: articles ∧
        mapGet (createArticle articles r).1 id = some a ∧
        ∀ k, k ≠ id → mapGet (createArticle articles r).1 k = mapGet articles k) ∧
    (getArticle articles r).1 = articles ∧
    (getArticleByTagAndDate ToLower articles r).1 = articles := by
  refine ⟨?_, ?_, ?_, ?_⟩
  · rcases createArticle_cases articles r with ⟨resp, h, _⟩ | ⟨a, id, _, _, _, _, _, h⟩
    · intro _
      rw [h]
    · intro hs
      rw [h] at hs
      exact absurd rfl hs
  · rcases createArticle_cases articles r with ⟨resp, h, hne⟩ | ⟨a, id, _, _, hd, hk, hf, h⟩
    · intro hs
      rw [h] at hs
      exact absurd hs hne
    · intro _
      rw [h]
      refine ⟨a, id, hd, hk, hf, ?_, mapGet_mapSet_self articles id a, ?_⟩
      · show mapSet articles id a = (id, a) :: articles
        unfold mapSet
        rw [filter_ne_of_mapGet_none articles id hf]
      · intro k hk'
        exact mapGet_mapSet_ne articles id k a hk'
  · exact getArticle_fst articles r
  · exact getArticleByTagAndDate_fst ToLower articles r

/-- C15 at the store of the test: creating the article of `TestCreateArticle`
adds the entry under `1` in front of the four entries, a second create of it
and the two read handlers leave the store as it is. -/
theorem C15_handlers_touch_at_most_one_entry_witness :
    (createArticle testStore (postArticle testArticle)).1 = (1, testArticle) :: testStore ∧
    (createArticle ((1, testArticle) :: testStore) (postArticle testArticle)).1
      = (1, testArticle) :: testStore ∧
    (getArticle testStore (getArticleRequest "3".toList)).1 = testStore ∧
    (getArticleByTagAndDate asciiToLower testStore testQuery).1 = testStore :=
  ⟨by decide, by decide,
    (C15_handlers_touch_at_most_one_entry asciiToLower testStore
      (getArticleRequest "3".toList)).2.2.1,
    (C15_handlers_touch_at_most_one_entry asciiToLower testStore testQuery).2.2.2⟩

/-! ## `Itoa` is injective -/

theorem toDigits_injective (n m : Nat) (h : Nat.toDigits 10 n = Nat.toDigits 10 m) : n = m := by
  have h1 := parseDigits_toDigits n
  rw [h, parseDigits_toDigits m] at h1
  exact (Option.some.inj h1).symm

theorem toDigits_head_ne_minus (n : Nat) (cs : Str) : Nat.toDigits 10 n ≠ '-' :: cs := by
  obtain ⟨c, cs', hc, he⟩ := toDigits_head n
  rw [he]
  intro h
  have hc' : c = '-' := (List.cons.inj h).1
  subst hc'
  exact absurd hc.1 (by decide)

/-- `Itoa` gives different strings for different integers. -/
theorem Itoa_injective (k k' : Int) (h : Itoa k = Itoa k') : k = k' := by
  unfold Itoa at h
  by_cases hk : k < 0
  · by_cases hk' : k' < 0
    · simp only [hk, hk', if_true] at h
      have := toDigits_injective _ _ (List.cons.inj h).2
      omega
    · simp only [hk, hk', if_true, if_false] at h
      exact absurd h.symm (toDigits_head_ne_minus _ _)
  · by_cases hk' : k' < 0
    · simp only [hk, hk', if_true, if_false] at h
      exact absurd h (toDigits_head_ne_minus _ _)
    · simp only [hk, hk', if_false] at h
      have := toDigits_injective _ _ h
      omega

/-! ## Stores in which an article carries the queried tag at most once -/

theorem hits_eq_filter (ToLower : Str → Str) (date tag : Str) (articles : Store)
    (hone : ∀ e ∈ articles, (e.2.Tags.filter fun t => ToLower t = tag).length ≤ 1) :
    hits ToLower date tag articles
      = articles.filter fun e =>
          decide (e.2.Date = date ∧ ∃ t ∈ e.2.Tags, ToLower t = tag) := by
  induction articles with
  | nil => rfl
  | cons e es ih =>
    have ih' := ih (fun x hx => hone x (List.mem_cons_of_mem e hx))
    have he := hone e (List.mem_cons_self e es)
    have hcons : hits ToLower date tag (e :: es)
        = (if e.2.Date = date then
            (e.2.Tags.filter fun t => ToLower t = tag).map fun _ => e else [])
          ++ hits ToLower date tag es := by
      simp [hits]
    rw [hcons, ih']
    by_cases hd : e.2.Date = date
    · cases hf : (e.2.Tags.filter fun t => decide (ToLower t = tag)) with
      | nil =>
        have hno : ¬ ∃ t ∈ e.2.Tags, ToLower t = tag := by
          rintro ⟨t, ht, htt⟩
          have : t ∈ (e.2.Tags.filter fun t => decide (ToLower t = tag)) :=
            List.mem_filter.2 ⟨ht, by simpa using htt⟩
          rw [hf] at this
          cases this
        rw [List.filter_cons_of_neg (by simp [hd, hno])]
        simp [hd]
      | cons t ts =>
        rw [hf] at he
        have hts : ts = [] := by
          cases ts with
          | nil => rfl
          | cons _ _ => simp at he
        subst hts
        have hyes : ∃ t ∈ e.2.Tags, ToLower t = tag := by
          have : t ∈ (e.2.Tags.filter fun t => decide (ToLower t = tag)) := by
            rw [hf]; exact List.mem_singleton.2 rfl
          obtain ⟨h1, h2⟩ := List.mem_filter.1 this
          exact ⟨t, h1, by simpa using h2⟩
        rw [List.filter_cons_of_pos (by simp [hd, hyes])]
        simp [hd]
    · rw [List.filter_cons_of_neg (by simp [hd])]
      simp [hd]

/-- C18: for every store (a map, so no key occurs twice) in which each article
has at most one tag equal to the queried tag case-insensitively, and every valid
query, the returned articles list has no duplicate entries and the count is the
number of matching articles of the store: those with the dashed date and the
queried tag. -/
theorem C18_single_occurrence_no_duplicates (ToLower : Str → Str) (articles : Store)
    (r : Request) (tagSeg dateSeg : Str)
    (hm : r.Method = MethodGet) (hp : urlParams r.Path = [tagSeg, dateSeg])
    (hl : dateSeg.length = 8)
    (hmap : keysNodup articles)
    (hone : ∀ e ∈ articles,
      (e.2.Tags.filter fun t => ToLower t = ToLower tagSeg).length ≤ 1) :
    ∃ res : result,
      getArticleByTagAndDate ToLower articles r
        = (articles, { Status := 200
                       Header := [("Content-Type".toList, "application/json".toList)]
                       Body := .jsonResult res }) ∧
      res.Articles.Nodup ∧
      res.Count
        = (articles.filter fun e =>
            decide (e.2.Date = dashDate dateSeg ∧
              ∃ t ∈ e.2.Tags, ToLower t = ToLower tagSeg)).length ∧
      (articles.filter fun e =>
        decide (e.2.Date = dashDate dateSeg ∧
          ∃ t ∈ e.2.Tags, ToLower t = ToLower tagSeg)).Nodup := by
  have hfil := hits_eq_filter ToLower (dashDate dateSeg) (ToLower tagSeg) articles hone
  have hkeys : ((articles.filter fun e =>
      decide (e.2.Date = dashDate dateSeg ∧
        ∃ t ∈ e.2.Tags, ToLower t = ToLower tagSeg)).map Prod.fst).Nodup :=
    List.Nodup.sublist (List.Sublist.map _ (List.filter_sublist _)) hmap
  refine ⟨queryResult ToLower articles tagSeg dateSeg, ?_, ?_, ?_, ?_⟩
  · exact getArticleByTagAndDate_of_params ToLower articles r tagSeg dateSeg hm hp hl
  · show (scan ToLower _ _ articles).Articles.Nodup
    rw [scan_Articles, hfil]
    refine List.Nodup.sublist (List.take_sublist _ _) ?_
    have hcomp : (fun e : Int × article => Itoa e.1) = Itoa ∘ Prod.fst := rfl
    rw [hcomp, ← List.map_map]
    exact List.Nodup.map (fun a b h => Itoa_injective a b h) hkeys
  · show (scan ToLower _ _ articles).Count = _
    rw [scan_Count, hfil]
  · exact List.Nodup.of_map _ hkeys

/-- C18 at the store and the request of the test: two articles match, the list
is `3`, `12` and the count is 2. -/
theorem C18_single_occurrence_no_duplicates_witness :
    (urlParams testQuery.Path = ["fruit".toList, "19941124".toList] ∧
      "19941124".toList.length = 8 ∧ keysNodup testStore ∧
      ∀ e ∈ testStore,
        (e.2.Tags.filter fun t => asciiToLower t = asciiToLower "fruit".toList).length ≤ 1) ∧
    (queryResult asciiToLower testStore "fruit".toList "19941124".toList).Articles
      = ["3".toList, "12".toList] ∧
    ∃ res : result,
      getArticleByTagAndDate asciiToLower testStore testQuery
        = (testStore, { Status := 200
                        Header := [("Content-Type".toList, "application/json".toList)]
                        Body := .jsonResult res }) ∧
      res.Articles.Nodup ∧
      res.Count
        = (testStore.filter fun e =>
            decide (e.2.Date = dashDate "19941124".toList ∧
              ∃ t ∈ e.2.Tags, asciiToLower t = asciiToLower "fruit".toList)).length ∧
      (testStore.filter fun e =>
        decide (e.2.Date = dashDate "19941124".toList ∧
          ∃ t ∈ e.2.Tags, asciiToLower t = asciiToLower "fruit".toList)).Nodup :=
  ⟨⟨by decide, rfl, by decide, by decide⟩, by decide,
    C18_single_occurrence_no_duplicates asciiToLower testStore testQuery
      "fruit".toList "19941124".toList rfl (by decide) rfl (by decide) (by decide)⟩

/-! ## The order in which the store is visited -/

theorem hits_perm (ToLower : Str → Str) (date tag : Str) (s1 s2 : Store) (h : s1.Perm s2) :
    (hits ToLower date tag s1).Perm (hits ToLower date tag s2) :=
  List.Perm.flatMap_right _ h

/-- C19: the result of a query does not depend on the order in which the store
is visited, up to the order of its lists.  For every valid query and every two
enumerations of the entries of one store, the tag and the count are equal and the
related tags are the same strings; and when the count is at most 10 the articles
lists hold the same ids the same number of times. -/
theorem C19_result_independent_of_iteration_order (ToLower : Str → Str) (s1 s2 : Store)
    (r : Request) (tagSeg dateSeg : Str)
    (hm : r.Method = MethodGet) (hp : urlParams r.Path = [tagSeg, dateSeg])
    (hl : dateSeg.length = 8) (hperm : s1.Perm s2) :
    ∃ res1 res2 : result,
      getArticleByTagAndDate ToLower s1 r
        = (s1, { Status := 200
                 Header := [("Content-Type".toList, "application/json".toList)]
                 Body := .jsonResult res1 }) ∧
      getArticleByTagAndDate ToLower s2 r
        = (s2, { Status := 200
                 Header := [("Content-Type".toList, "application/json".toList)]
                 Body := .jsonResult res2 }) ∧
      res1.Tag = res2.Tag ∧
      res1.Count = res2.Count ∧
      (∀ s : Str, s ∈ res1.RelatedTags ↔ s ∈ res2.RelatedTags) ∧
      res1.RelatedTags.Perm res2.RelatedTags ∧
      (res1.Count ≤ 10 → res1.Articles.Perm res2.Articles) := by
  have hhits := hits_perm ToLower (dashDate dateSeg) (ToLower tagSeg) s1 s2 hperm
  have hmem : ∀ s : Str,
      s ∈ (scan ToLower (dashDate dateSeg) (ToLower tagSeg) s1).relatedTags
        ↔ s ∈ (scan ToLower (dashDate dateSeg) (ToLower tagSeg) s2).relatedTags := by
    intro s
    rw [mem_scan_relatedTags, mem_scan_relatedTags]
    constructor
    · rintro ⟨e, he, h⟩
      exact ⟨e, hperm.mem_iff.1 he, h⟩
    · rintro ⟨e, he, h⟩
      exact ⟨e, hperm.mem_iff.2 he, h⟩
  refine ⟨queryResult ToLower s1 tagSeg dateSeg, queryResult ToLower s2 tagSeg dateSeg,
    ?_, ?_, rfl, ?_, hmem, ?_, ?_⟩
  · exact getArticleByTagAndDate_of_params ToLower s1 r tagSeg dateSeg hm hp hl
  · exact getArticleByTagAndDate_of_params ToLower s2 r tagSeg dateSeg hm hp hl
  · show (scan ToLower _ _ s1).Count = (scan ToLower _ _ s2).Count
    rw [scan_Count, scan_Count, hhits.length_eq]
  · exact (List.perm_ext_iff_of_nodup (nodup_scan_relatedTags ToLower _ _ s1)
      (nodup_scan_relatedTags ToLower _ _ s2)).2 hmem
  · intro hc
    have hc1 : (hits ToLower (dashDate dateSeg) (ToLower tagSeg) s1).length ≤ 10 := by
      rw [← scan_Count]; exact hc
    have hc2 : (hits ToLower (dashDate dateSeg) (ToLower tagSeg) s2).length ≤ 10 := by
      rw [← hhits.length_eq]; exact hc1
    show (scan ToLower _ _ s1).Articles.Perm (scan ToLower _ _ s2).Articles
    rw [scan_Articles, scan_Articles, List.take_of_length_le (by simpa using hc1),
      List.take_of_length_le (by simpa using hc2)]
    exact hhits.map _

/-- C19 at the store of the test and its reverse: the lists come in another
order.  At the store of twelve matching articles and its reverse, where the
count is 12, the ten listed ids differ. -/
theorem C19_result_independent_of_iteration_order_witness :
    (urlParams testQuery.Path = ["fruit".toList, "19941124".toList] ∧
      "19941124".toList.length = 8 ∧ testStore.Perm testStore.reverse) ∧
    (queryResult asciiToLower testStore "fruit".toList "19941124".toList).Articles
      = ["3".toList, "12".toList] ∧
    (queryResult asciiToLower testStore.reverse "fruit".toList "19941124".toList).Articles
      = ["12".toList, "3".toList] ∧
    "0".toList ∈ (queryResult asciiToLower twelveStore "go".toList "20220101".toList).Articles ∧
    "0".toList ∉
      (queryResult asciiToLower twelveStore.reverse "go".toList "20220101".toList).Articles ∧
    ∃ res1 res2 : result,
      getArticleByTagAndDate asciiToLower testStore testQuery
        = (testStore, { Status := 200
                        Header := [("Content-Type".toList, "application/json".toList)]
                        Body := .jsonResult res1 }) ∧
      getArticleByTagAndDate asciiToLower testStore.reverse testQuery
        = (testStore.reverse, { Status := 200
                                Header := [("Content-Type".toList, "application/json".toList)]
                                Body := .jsonResult res2 }) ∧
      res1.Tag = res2.Tag ∧
      res1.Count = res2.Count ∧
      (∀ s : Str, s ∈ res1.RelatedTags ↔ s ∈ res2.RelatedTags) ∧
      res1.RelatedTags.Perm res2.RelatedTags ∧
      (res1.Count ≤ 10 → res1.Articles.Perm res2.Articles) :=
  ⟨⟨by decide, rfl, (List.reverse_perm testStore).symm⟩, by decide, by decide, by decide,
    by decide,
    C19_result_independent_of_iteration_order asciiToLower testStore testStore.reverse
      testQuery "fruit".toList "19941124".toList rfl (by decide) rfl
      (List.reverse_perm testStore).symm⟩

/-! ## The invariant of the store -/

theorem idsParse_createArticle (articles : Store) (r : Request)
    (h : ∀ e ∈ articles, Atoi e.2.ID = some e.1) :
    ∀ e ∈ (createArticle articles r).1, Atoi e.2.ID = some e.1 := by
  rcases createArticle_cases articles r with ⟨resp, hc, _⟩ | ⟨a, id, _, _, _, hk, _, hc⟩
  · rw [hc]; exact h
  · rw [hc]
    intro e he
    simp only [mapSet, List.mem_cons] at he
    rcases he with rfl | he
    · exact hk
    · exact h e (List.mem_filter.1 he).1

theorem serve_invariant (ToLower : Str → Str) (articles : Store) (hr : Handler × Request)
    (h : (∀ e ∈ articles, Atoi e.2.ID = some e.1) ∧ keysNodup articles) :
    (∀ e ∈ (serve ToLower articles hr).1, Atoi e.2.ID = some e.1) ∧
      keysNodup (serve ToLower articles hr).1 := by
  obtain ⟨hk, req⟩ := hr
  cases hk with
  | createArticle =>
    exact ⟨idsParse_createArticle articles req h.1, keysNodup_createArticle articles req h.2⟩
  | getArticle =>
    have hs : (serve ToLower articles (Handler.getArticle, req)).1 = articles :=
      getArticle_fst articles req
    rw [hs]; exact h
  | getArticleByTagAndDate =>
    have hs : (serve ToLower articles (Handler.getArticleByTagAndDate, req)).1 = articles :=
      getArticleByTagAndDate_fst ToLower articles req
    rw [hs]; exact h

theorem runFrom_invariant (ToLower : Str → Str) (reqs : List (Handler × Request))
    (articles : Store)
    (h : (∀ e ∈ articles, Atoi e.2.ID = some e.1) ∧ keysNodup articles) :
    (∀ e ∈ runFrom ToLower articles reqs, Atoi e.2.ID = some e.1) ∧
      keysNodup (runFrom ToLower articles reqs) := by
  induction reqs generalizing articles with
  | nil => exact h
  | cons hr rest ih =>
    exact ih (serve ToLower articles hr).1 (serve_invariant ToLower articles hr h)

theorem eq_of_key_eq (s : Store) (h : keysNodup s) (e1 e2 : Int × article)
    (h1 : e1 ∈ s) (h2 : e2 ∈ s) (hk : e1.1 = e2.1) : e1 = e2 :=
  List.inj_on_of_nodup_map h h1 h2 hk

/-- C20: store invariant.  Starting from the empty store, after every sequence
of requests to `createArticle`, `getArticle` and `getArticleByTagAndDate`, every
entry `k ↦ a` of the store is such that the id string of `a` parses to `k`, and
no key occurs twice; hence two entries whose id strings denote the same integer
are one entry. -/
theorem C20_store_ids_parse_to_their_keys (ToLower : Str → Str)
    (reqs : List (Handler × Request)) :
    (∀ e ∈ run ToLower reqs, Atoi e.2.ID = some e.1) ∧
    keysNodup (run ToLower reqs) ∧
    (∀ e1 ∈ run ToLower reqs, ∀ e2 ∈ run ToLower reqs,
      Atoi e1.2.ID = Atoi e2.2.ID → e1 = e2) := by
  have hinv := runFrom_invariant ToLower reqs []
    ⟨fun e he => (by cases he), List.nodup_nil⟩
  refine ⟨hinv.1, hinv.2, ?_⟩
  intro e1 h1 e2 h2 heq
  have hk1 := hinv.1 e1 h1
  have hk2 := hinv.1 e2 h2
  rw [hk1, hk2] at heq
  exact eq_of_key_eq _ hinv.2 e1 e2 h1 h2 (Option.some.inj heq)

/-- C20 at a sequence of five requests: two creates with the id `5`, of which
the second is written `+5` and is refused, a create with the id `1`, a get and a
query. -/
theorem C20_store_ids_parse_to_their_keys_witness :
    run asciiToLower
        [(.createArticle, postArticle firstFive),
         (.createArticle, postArticle { secondFive with ID := "+5".toList }),
         (.createArticle, postArticle testArticle),
         (.getArticle, getArticleRequest "5".toList),
         (.getArticleByTagAndDate, testQuery)]
      = [(1, testArticle), (5, firstFive)] ∧
    (∀ e ∈ run asciiToLower
        [(.createArticle, postArticle firstFive),
         (.createArticle, postArticle { secondFive with ID := "+5".toList }),
         (.createArticle, postArticle testArticle),
         (.getArticle, getArticleRequest "5".toList),
         (.getArticleByTagAndDate, testQuery)], Atoi e.2.ID = some e.1) :=
  ⟨by decide,
    (C20_store_ids_parse_to_their_keys asciiToLower
      [(.createArticle, postArticle firstFive),
       (.createArticle, postArticle { secondFive with ID := "+5".toList }),
       (.createArticle, postArticle testArticle),
       (.getArticle, getArticleRequest "5".toList),
       (.getArticleByTagAndDate, testQuery)]).1⟩

/-! ## Decoding the body -/

theorem saveError_a (d : DecodeState) (msg : Str) : (saveError d msg).a = d.a := by
  unfold saveError
  split <;> rfl

theorem saveError_isSome (d : DecodeState) (msg : Str) :
    (saveError d msg).savedError.isSome = true := by
  unfold saveError
  split
  · rename_i h; rw [h]; rfl
  · rfl

theorem saveError_of_some (d : DecodeState) (msg m : Str) (h : d.savedError = some m) :
    (saveError d msg).savedError = some m := by
  unfold saveError
  rw [h]
  exact h

theorem afterString_of_some (d : DecodeState) (field : Field) (a : article)
    (kind : Option Str) (m : Str) (h : d.savedError = some m) :
    (afterString d field a kind).savedError = some m := by
  unfold afterString
  cases kind with
  | none => exact h
  | some k => exact saveError_of_some _ _ m h

theorem afterString_a (d : DecodeState) (field : Field) (a : article) (kind : Option Str) :
    (afterString d field a kind).a = a := by
  unfold afterString
  cases kind with
  | none => rfl
  | some k => exact saveError_a _ _

theorem storeTags_of_some (d : DecodeState) (v : JSON) (m : Str) (h : d.savedError = some m) :
    (storeTags d v).savedError = some m := by
  cases v with
  | array elems =>
    simp only [storeTags]
    split
    · exact h
    · split
      · exact saveError_of_some _ _ m h
      · exact h
  | null => exact h
  | bool _ => exact saveError_of_some _ _ m h
  | number _ => exact saveError_of_some _ _ m h
  | string _ => exact saveError_of_some _ _ m h
  | object _ => exact saveError_of_some _ _ m h

theorem storeTags_ID (d : DecodeState) (v : JSON) : (storeTags d v).a.ID = d.a.ID := by
  cases v with
  | array elems =>
    simp only [storeTags]
    split
    · rfl
    · split
      · rw [saveError_a]
      · rfl
  | null => rfl
  | bool _ => rw [storeTags, saveError_a]
  | number _ => rw [storeTags, saveError_a]
  | string _ => rw [storeTags, saveError_a]
  | object _ => rw [storeTags, saveError_a]

/-- An error saved by the decoder stays the error of the decoding. -/
theorem decodeMember_of_some (foldName : Str → Str) (d : DecodeState) (kv : Str × JSON)
    (m : Str) (h : d.savedError = some m) :
    (decodeMember foldName d kv).savedError = some m := by
  unfold decodeMember
  split
  · exact saveError_of_some _ _ m h
  · exact afterString_of_some _ _ _ _ m h
  · exact afterString_of_some _ _ _ _ m h
  · exact afterString_of_some _ _ _ _ m h
  · exact afterString_of_some _ _ _ _ m h
  · exact storeTags_of_some _ _ m h

theorem foldl_decodeMember_of_some (foldName : Str → Str) (members : List (Str × JSON))
    (d : DecodeState) (m : Str) (h : d.savedError = some m) :
    (members.foldl (decodeMember foldName) d).savedError = some m := by
  induction members generalizing d with
  | nil => exact h
  | cons kv rest ih => exact ih _ (decodeMember_of_some foldName d kv m h)

/-- A key with no field leaves an error in the decoder. -/
theorem foldl_decodeMember_unknown (foldName : Str → Str) (members : List (Str × JSON))
    (d : DecodeState) (kv : Str × JSON) (hmem : kv ∈ members)
    (hkey : findField foldName kv.1 = none) :
    ∃ m, (members.foldl (decodeMember foldName) d).savedError = some m := by
  induction members generalizing d with
  | nil => cases hmem
  | cons x rest ih =>
    rcases List.mem_cons.1 hmem with rfl | hrest
    · have hsome : (decodeMember foldName d kv).savedError.isSome = true := by
        unfold decodeMember
        rw [hkey]
        exact saveError_isSome _ _
      obtain ⟨m, hm⟩ := Option.isSome_iff_exists.1 hsome
      exact ⟨m, foldl_decodeMember_of_some foldName rest _ m hm⟩
    · exact ih _ hrest

/-- A body with a key that has no field does not decode. -/
theorem decodeArticle_unknown_key (foldName : Str → Str) (members : List (Str × JSON))
    (kv : Str × JSON) (hmem : kv ∈ members) (hkey : findField foldName kv.1 = none) :
    ∃ m, decodeArticle foldName (.object members) = .error m := by
  obtain ⟨m, hm⟩ := foldl_decodeMember_unknown foldName members
    { a := zeroArticle, spare := [], savedError := none } kv hmem hkey
  refine ⟨m, ?_⟩
  simp only [decodeArticle, decodeMembers, hm]

/-- Without a key for the field `ID` the id stays what it was. -/
theorem foldl_decodeMember_ID (foldName : Str → Str) (members : List (Str × JSON))
    (d : DecodeState) (hno : ∀ kv ∈ members, findField foldName kv.1 ≠ some .ID) :
    (members.foldl (decodeMember foldName) d).a.ID = d.a.ID := by
  induction members generalizing d with
  | nil => rfl
  | cons kv rest ih =>
    rw [List.foldl_cons, ih _ (fun x hx => hno x (List.mem_cons_of_mem kv hx))]
    have hkv := hno kv (List.mem_cons_self kv rest)
    unfold decodeMember
    split
    · rw [saveError_a]
    · rename_i h; exact absurd h hkv
    · rw [afterString_a]
    · rw [afterString_a]
    · rw [afterString_a]
    · exact storeTags_ID _ _

/-- A POST with content type `application/json` whose body does not decode, or
decodes to an id that does not parse, is answered 400 and leaves the store. -/
theorem createArticle_bad_request (articles : Store) (r : Request)
    (hm : r.Method = MethodPost) (hc : r.ContentType = "application/json".toList)
    (hbad : (∃ m, r.Decoded = .error m) ∨ ∃ a, r.Decoded = .ok a ∧ Atoi a.ID = none) :
    (createArticle articles r).2.Status = 400 ∧ (createArticle articles r).1 = articles := by
  rcases hbad with ⟨m, hd⟩ | ⟨a, hd, hk⟩
  · have h : createArticle articles r = (articles, httpError [] m StatusBadRequest) := by
      simp only [createArticle, hm, hc, hd, ne_eq, not_true_eq_false, if_false]
    rw [h]; exact ⟨rfl, rfl⟩
  · have h : createArticle articles r
        = (articles, httpError [] "Invalid ID - Not a valid number".toList StatusBadRequest) := by
      simp only [createArticle, hm, hc, hd, hk, ne_eq, not_true_eq_false, if_false]
    rw [h]; exact ⟨rfl, rfl⟩

theorem findField_eq_none (foldName : Str → Str) (key : Str)
    (hkey : ∀ f : Field, foldName f.name ≠ foldName key) : findField foldName key = none := by
  have hex : ∀ f : Field, f.name ≠ key := fun f h => hkey f (by rw [h])
  simp [findField, articleFields, List.find?, hex, hkey]

theorem findField_ne_ID (foldName : Str → Str) (key : Str)
    (hkey : foldName Field.ID.name ≠ foldName key) : findField foldName key ≠ some .ID := by
  have hex : Field.ID.name ≠ key := fun h => hkey (by rw [h])
  unfold findField
  intro h
  split at h
  · rename_i f hf
    cases h
    have := List.find?_some hf
    exact hex (by simpa using this)
  · have := List.find?_some h
    exact hkey (by simpa using this)

theorem findField_id (foldName : Str → Str) : findField foldName "id".toList = some .ID := by
  unfold findField
  have h : (articleFields.find? fun f => decide (f.name = "id".toList)) = some .ID := by decide
  rw [h]

/-- C16, as stated, fails on a key that differs from a field name in case only:
the key `ID` is none of `id`, `title`, `date`, `body`, `tags`, the decoder
takes it for the field `id`, and the body is accepted and stored. -/
theorem C16_counterexample_key_ID_is_accepted :
    "ID".toList ∉ ["id".toList, "title".toList, "date".toList, "body".toList, "tags".toList] ∧
    findField asciiFoldName "ID".toList = some .ID ∧
    createArticle [] (postJSON asciiFoldName upperIDBody)
      = ([(9, { ID := "9".toList, Title := "Nine".toList, Date := "2022-01-01".toList
                Body := "text".toList, Tags := ["a".toList] })],
          { Status := 200, Header := [], Body := .text [] }) := by
  decide

/-- C16, amended: for every POST request with content type `application/json`
whose JSON object body contains a key that matches none of the fields `id`,
`title`, `date`, `body`, `tags`, neither exactly nor after case folding,
`createArticle` answers 400 and leaves the store unchanged, whatever the other
members of the body are. -/
theorem C16_unmatched_key_is_rejected (foldName : Str → Str) (articles : Store) (r : Request)
    (members : List (Str × JSON)) (key : Str) (value : JSON)
    (hm : r.Method = MethodPost) (hc : r.ContentType = "application/json".toList)
    (hd : r.Decoded = decodeArticle foldName (.object members))
    (hmem : (key, value) ∈ members)
    (hkey : ∀ f : Field, foldName f.name ≠ foldName key) :
    (createArticle articles r).2.Status = 400 ∧ (createArticle articles r).1 = articles := by
  obtain ⟨m, hdec⟩ := decodeArticle_unknown_key foldName members (key, value) hmem
    (findField_eq_none foldName key hkey)
  exact createArticle_bad_request articles r hm hc (Or.inl ⟨m, hd.trans hdec⟩)

/-- C16, amended, at the store of the test and a body that holds a valid new
article and the key `author`. -/
theorem C16_unmatched_key_is_rejected_witness :
    (∀ f : Field, asciiFoldName f.name ≠ asciiFoldName "author".toList) ∧
    (createArticle testStore (postJSON asciiFoldName extraKeyBody)).2.Status = 400 ∧
    (createArticle testStore (postJSON asciiFoldName extraKeyBody)).1 = testStore :=
  ⟨fun f => by cases f <;> decide,
    C16_unmatched_key_is_rejected asciiFoldName testStore (postJSON asciiFoldName extraKeyBody)
      [("id".toList, .string "9".toList), ("title".toList, .string "Nine".toList),
        ("date".toList, .string "2022-01-01".toList), ("body".toList, .string "text".toList),
        ("tags".toList, .array [.string "a".toList]), ("author".toList, .string "me".toList)]
      "author".toList (.string "me".toList) rfl rfl rfl
      (by simp) (fun f => by cases f <;> decide)⟩

/-- C17, as stated, fails on a body that omits every field but the id: the
body `{"id": "9"}` is accepted and stored with the other fields empty. -/
theorem C17_counterexample_only_id_is_accepted :
    createArticle testStore (postJSON asciiFoldName onlyIDBody)
      = ((9, { ID := "9".toList, Title := [], Date := [], Body := [], Tags := [] }) :: testStore,
          { Status := 200, Header := [], Body := .text [] }) := by
  decide

/-- C17, amended: of the fields of an article only the id is required on
create.  For every POST request with content type `application/json` whose JSON
object body has no key for the field `id`, `createArticle` answers 400 and
stores nothing.  A body that omits the other fields is not rejected for it: the
body that holds only an id that parses to a new key is stored, with the title,
date, body and tags empty, and answered 200. -/
theorem C17_only_the_id_is_required (foldName : Str → Str) (articles : Store) (r : Request)
    (hm : r.Method = MethodPost) (hc : r.ContentType = "application/json".toList) :
    (∀ members : List (Str × JSON),
      r.Decoded = decodeArticle foldName (.object members) →
      (∀ kv ∈ members, foldName Field.ID.name ≠ foldName kv.1) →
      (createArticle articles r).2.Status = 400 ∧ (createArticle articles r).1 = articles) ∧
    (∀ (s : Str) (k : Int),
      r.Decoded = decodeArticle foldName (.object [("id".toList, .string s)]) →
      Atoi s = some k → mapGet articles k = none →
      createArticle articles r
        = ((k, { ID := s, Title := [], Date := [], Body := [], Tags := [] }) :: articles,
            { Status := 200, Header := [], Body := .text [] })) := by
  constructor
  · intro members hd hno
    have hid : (decodeMembers foldName members).a.ID = [] :=
      foldl_decodeMember_ID foldName members _
        (fun kv hkv => findField_ne_ID foldName kv.1 (hno kv hkv))
    apply createArticle_bad_request articles r hm hc
    cases herr : (decodeMembers foldName members).savedError with
    | some m =>
      refine Or.inl ⟨m, ?_⟩
      rw [hd]
      simp only [decodeArticle, herr]
    | none =>
      refine Or.inr ⟨(decodeMembers foldName members).a, ?_, ?_⟩
      · rw [hd]
        simp only [decodeArticle, herr]
      · rw [hid]
        rfl
  · intro s k hd hk hf
    have hdec : decodeArticle foldName (.object [("id".toList, .string s)])
        = .ok { ID := s, Title := [], Date := [], Body := [], Tags := [] } := by
      simp only [decodeArticle, decodeMembers, List.foldl_cons, List.foldl_nil, decodeMember,
        findField_id, storeString, afterString, zeroArticle]
    rw [createArticle_fresh articles r _ k hm hc (hd.trans hdec) hk hf]
    unfold mapSet
    rw [filter_ne_of_mapGet_none articles k hf]

/-- C17, amended, at the store of the test: the body without an id is refused,
the body with only the id `9` is stored. -/
theorem C17_only_the_id_is_required_witness :
    (∀ kv ∈ [("title".toList, JSON.string "Nine".toList),
        ("date".toList, JSON.string "2022-01-01".toList),
        ("body".toList, JSON.string "text".toList),
        ("tags".toList, JSON.array [.string "a".toList])],
      asciiFoldName Field.ID.name ≠ asciiFoldName kv.1) ∧
    (createArticle testStore (postJSON asciiFoldName noIDBody)).2.Status = 400 ∧
    (createArticle testStore (postJSON asciiFoldName noIDBody)).1 = testStore ∧
    createArticle testStore (postJSON asciiFoldName onlyIDBody)
      = ((9, { ID := "9".toList, Title := [], Date := [], Body := [], Tags := [] }) :: testStore,
          { Status := 200, Header := [], Body := .text [] }) := by
  have hno : ∀ kv ∈ [("title".toList, JSON.string "Nine".toList),
      ("date".toList, JSON.string "2022-01-01".toList),
      ("body".toList, JSON.string "text".toList),
      ("tags".toList, JSON.array [.string "a".toList])],
      asciiFoldName Field.ID.name ≠ asciiFoldName kv.1 := by
    intro kv hkv
    simp only [List.mem_cons, List.mem_singleton, List.not_mem_nil, or_false] at hkv
    rcases hkv with rfl | rfl | rfl | rfl <;> decide
  have h1 := (C17_only_the_id_is_required asciiFoldName testStore
    (postJSON asciiFoldName noIDBody) rfl rfl).1
      [("title".toList, JSON.string "Nine".toList),
        ("date".toList, JSON.string "2022-01-01".toList),
        ("body".toList, JSON.string "text".toList),
        ("tags".toList, JSON.array [.string "a".toList])] rfl hno
  have h2 := (C17_only_the_id_is_required asciiFoldName testStore
    (postJSON asciiFoldName onlyIDBody) rfl rfl).2 "9".toList 9 rfl (by decide) (by decide)
  exact ⟨hno, h1.1, h1.2, h2⟩

end Service
